import Mathlib

/-!
Verification development for the LostMind AI documentation pipeline
(scripts/docs-automation-v2/enhanced-scan-projects.js, selective version,
and the standalone DocumentationValidator script).

Strings are modelled as lists of characters.  JavaScript string methods
(includes, split, trim, toLowerCase) and the concrete regular expressions
used by the code are hand-compiled to deterministic recursive functions;
each definition carries a comment naming the source function it embeds.
-/

namespace LM

/-- Strings are lists of characters. -/
abbrev Str := List Char

/-- The whitespace class of the JavaScript regexp escape backslash-s,
restricted to the ASCII characters that occur in this corpus. -/
def isWS (c : Char) : Bool :=
  c == ' ' || c == '\t' || c == '\n' || c == '\r' || c == '\x0b' || c == '\x0c'

/-- ASCII decimal digit test (JS regexp backslash-d). -/
def isDigitCh (c : Char) : Bool := '0' ≤ c && c ≤ '9'

/-- ASCII letter test (JS regexp class a-zA-Z). -/
def isAlphaCh (c : Char) : Bool :=
  ('a' ≤ c && c ≤ 'z') || ('A' ≤ c && c ≤ 'Z')

/-- ASCII letter-or-digit test (JS regexp class a-zA-Z0-9). -/
def isAlnumCh (c : Char) : Bool := isAlphaCh c || isDigitCh c

/-- ASCII lower-casing of one character (String.prototype.toLowerCase,
ASCII fragment: all inputs in this corpus are ASCII). -/
def lowerChar (c : Char) : Char :=
  if 'A' ≤ c && c ≤ 'Z' then Char.ofNat (c.toNat + 32) else c

/-- ASCII upper-casing of one character (String.prototype.toUpperCase). -/
def upperChar (c : Char) : Char :=
  if 'a' ≤ c && c ≤ 'z' then Char.ofNat (c.toNat - 32) else c

/-- String.prototype.toLowerCase. -/
def lowerStr (s : Str) : Str := s.map lowerChar

/-- Boolean list-prefix test. -/
def isPrefixB : Str → Str → Bool
  | [], _ => true
  | _ :: _, [] => false
  | a :: as, b :: bs => a == b && isPrefixB as bs

/-- String.prototype.includes: does the needle occur inside the haystack. -/
def hasSub (hay needle : Str) : Bool :=
  match hay with
  | [] => needle.isEmpty
  | _ :: rest => isPrefixB needle hay || hasSub rest needle

/-- Scan for the first occurrence of the character stop; return the
characters strictly before it and the remainder strictly after it.
Returns none when stop does not occur.  This is the shape of every
JS regexp fragment of the form "anything-but-stop, repeated, then stop". -/
def splitUntil (stop : Char) : Str → Option (Str × Str)
  | [] => none
  | c :: rest =>
    if c == stop then some ([], rest)
    else
      match splitUntil stop rest with
      | some (pre, post) => some (c :: pre, post)
      | none => none

/-- path.basename: the segment after the last slash. -/
def basename (p : Str) : Str :=
  ((p.reverse.takeWhile (fun c => c != '/')).reverse)

/-- The suffix starting at the last dot of the list, if any dot occurs. -/
def lastDotSuffix : Str → Option Str
  | [] => none
  | c :: rest =>
    if c == '.' then
      match lastDotSuffix rest with
      | some s => some s
      | none => some (c :: rest)
    else lastDotSuffix rest

/-- path.extname: the suffix of the basename from its last dot; empty when
the basename has no dot or only a leading dot (dotfile rule). -/
def extname (p : Str) : Str :=
  match basename p with
  | [] => []
  | _ :: rest =>
    match lastDotSuffix rest with
    | some s => s
    | none => []

/-- Split off the first line: characters before the first newline and
the remainder after it; none when the list holds no newline. -/
def splitFirstNl : Str → Option (Str × Str)
  | [] => none
  | c :: rest =>
    if c == '\n' then some ([], rest)
    else
      match splitFirstNl rest with
      | some (ln, r) => some (c :: ln, r)
      | none => none

/-- Length bound for splitFirstNl, used for termination below. -/
def splitFirstNl_len : ∀ (l ln r : Str), splitFirstNl l = some (ln, r) → r.length < l.length := by
  intro l
  induction l with
  | nil => intro ln r h; simp [splitFirstNl] at h
  | cons c rest ih =>
    intro ln r h
    simp only [splitFirstNl] at h
    by_cases hc : c == '\n'
    · simp [hc] at h
      simp [← h.2]
    · simp [hc] at h
      cases hsp : splitFirstNl rest with
      | none => rw [hsp] at h; simp at h
      | some pr =>
        rw [hsp] at h
        obtain ⟨ln2, r2⟩ := pr
        simp at h
        have := ih ln2 r2 hsp
        simp [← h.2]
        omega

/-- String.prototype.split with separator newline. -/
def splitLines (l : Str) : List Str :=
  match h : splitFirstNl l with
  | some (ln, r) => ln :: splitLines r
  | none => [l]
termination_by l.length
decreasing_by exact splitFirstNl_len l ln r h

/-- Array.prototype.join with separator newline. -/
def joinNl : List Str → Str
  | [] => []
  | [x] => x
  | x :: xs => x ++ '\n' :: joinNl xs

/-- String.prototype.trim (whitespace stripped from both ends). -/
def jsTrim (l : Str) : Str :=
  ((l.dropWhile isWS).reverse.dropWhile isWS).reverse

/-- Length bound for dropWhile, used for termination below. -/
def dropWhile_len : ∀ (p : Char → Bool) (l : Str), (l.dropWhile p).length ≤ l.length := by
  intro p l
  induction l with
  | nil => simp
  | cons c rest ih =>
    by_cases hc : p c
    · simp [List.dropWhile_cons, hc]
      omega
    · simp [List.dropWhile_cons, hc]

/-- Length bound for splitUntil, used for termination below. -/
def splitUntil_len : ∀ (stop : Char) (l pre post : Str), splitUntil stop l = some (pre, post) → post.length < l.length := by
  intro stop l
  induction l with
  | nil => intro pre post h; simp [splitUntil] at h
  | cons c rest ih =>
    intro pre post h
    simp only [splitUntil] at h
    by_cases hc : c == stop
    · simp [hc] at h
      simp [← h.2]
    · simp [hc] at h
      cases hsp : splitUntil stop rest with
      | none => rw [hsp] at h; simp at h
      | some pr =>
        rw [hsp] at h
        obtain ⟨p2, q2⟩ := pr
        simp at h
        have := ih p2 q2 hsp
        simp [← h.2]
        omega

/-- Step 1 of EnhancedProjectScanner.sanitizeMDXContent (line 1845):
global replacement of the regexp for a doctype declaration
(left angle, bang, DOCTYPE, any run without a right angle, right angle)
by the empty string.  A match needs a closing right angle; on failure the
scan advances one character, as the JS regexp engine does. -/
def stripDoctype : Str → Str
  | [] => []
  | c :: rest =>
    if c == '<' then
      if isPrefixB ("!DOCTYPE".data) rest then
        match h : splitUntil '>' (rest.drop 8) with
        | some (_, rem) => stripDoctype rem
        | none => c :: stripDoctype rest
      else c :: stripDoctype rest
    else c :: stripDoctype rest
termination_by l => l.length
decreasing_by
  all_goals first
  | (have h1 := splitUntil_len '>' (rest.drop 8) _ _ h
     have h2 : (rest.drop 8).length ≤ rest.length := by
       simp [List.length_drop]
     simp only [List.length_cons]
     omega)
  | (simp only [List.length_cons]; omega)

/-- The tail of a br-tag match: optional whitespace, optional slash, then
the closing right angle; returns the remainder after the right angle. -/
def brTail (l : Str) : Option Str :=
  match l.dropWhile isWS with
  | [] => none
  | c :: rest =>
    if c == '>' then some rest
    else if c == '/' then
      match rest with
      | [] => none
      | c2 :: rest2 => if c2 == '>' then some rest2 else none
    else none

/-- Length bound for brTail, used for termination below. -/
def brTail_len : ∀ (l rem : Str), brTail l = some rem → rem.length ≤ l.length := by
  intro l rem h
  have hd : (l.dropWhile isWS).length ≤ l.length := dropWhile_len isWS l
  unfold brTail at h
  cases hw : l.dropWhile isWS with
  | nil => rw [hw] at h; simp at h
  | cons c rest =>
    rw [hw] at h
    rw [hw] at hd
    simp only [List.length_cons] at hd
    by_cases hc : c = '>'
    · simp [hc] at h
      subst h
      omega
    · simp [hc] at h
      by_cases hc2 : c = '/'
      · simp [hc2] at h
        cases rest with
        | nil => simp at h
        | cons c2 rest2 =>
          by_cases hc3 : c2 = '>'
          · simp [hc3] at h
            subst h
            simp only [List.length_cons] at hd
            omega
          · simp [hc3] at h
      · simp [hc2] at h

/-- Step 2 of sanitizeMDXContent (line 1846): global replacement of the
br-tag regexp (left angle, b, r, optional whitespace, optional slash,
right angle) by the canonical self-closed form. -/
def normBr : Str → Str
  | [] => []
  | c :: rest =>
    if c == '<' then
      if isPrefixB ("br".data) rest then
        match h : brTail (rest.drop 2) with
        | some rem => ("<br/>".data) ++ normBr rem
        | none => c :: normBr rest
      else c :: normBr rest
    else c :: normBr rest
termination_by l => l.length
decreasing_by
  all_goals first
  | (have h1 := brTail_len (rest.drop 2) _ h
     have h2 : (rest.drop 2).length ≤ rest.length := by
       simp [List.length_drop]
     simp only [List.length_cons]
     omega)
  | (simp only [List.length_cons]; omega)

/-- FileClassifier.classify (enhanced-scan-projects.js lines 974-1004):
ordered first-match-wins rule table over the lower-cased basename, then
content headings, then the extension default. -/
def classify (filePath : Str) (content : Str) : Str :=
  let filename := lowerStr (basename filePath)
  let ext := lowerStr (extname filePath)
  let contentLower := lowerStr content
  if hasSub filename ("readme".data) then "readme".data
  else if hasSub filename ("claude".data) then "ai-context".data
  else if hasSub filename ("changelog".data) || hasSub filename ("changes".data) then "changelog".data
  else if hasSub filename ("api".data) || hasSub filename ("reference".data) then "api-reference".data
  else if hasSub filename ("guide".data) || hasSub filename ("tutorial".data) then "guide".data
  else if hasSub filename ("quickstart".data) || hasSub filename ("getting-started".data) then "quickstart".data
  else if hasSub filename ("architecture".data) || hasSub filename ("design".data) then "architecture".data
  else if hasSub filename ("deployment".data) || hasSub filename ("deploy".data) then "deployment".data
  else if hasSub filename ("development".data) || hasSub filename ("dev".data) then "development".data
  else if hasSub filename ("security".data) || hasSub filename ("auth".data) then "security".data
  else if hasSub filename ("migration".data) || hasSub filename ("upgrade".data) then "migration".data
  else if hasSub contentLower ("# api".data) || hasSub contentLower ("## endpoints".data) then "api-reference".data
  else if hasSub contentLower ("# quick start".data) || hasSub contentLower ("## getting started".data) then "quickstart".data
  else if hasSub contentLower ("# architecture".data) || hasSub contentLower ("## system design".data) then "architecture".data
  else if [".md".data, ".mdx".data].any (fun e => e == ext) then "documentation".data
  else if [".js".data, ".ts".data, ".py".data, ".java".data].any (fun e => e == ext) then "code".data
  else if filename == ("package.json".data) then "config".data
  else if ([".json".data, ".yaml".data, ".yml".data].any (fun e => e == ext)) && hasSub filename ("api".data) then "api-spec".data
  else "misc".data

/-- The object literal inside FileClassifier.getNavigationOrder
(enhanced-scan-projects.js lines 1007-1021). -/
def navOrderTable : List (Str × Nat) :=
  [("readme".data, 1), ("quickstart".data, 2), ("guide".data, 3),
   ("api-reference".data, 4), ("architecture".data, 5), ("development".data, 6),
   ("deployment".data, 7), ("security".data, 8), ("migration".data, 9),
   ("changelog".data, 10), ("ai-context".data, 11), ("documentation".data, 12),
   ("misc".data, 99)]

/-- FileClassifier.getNavigationOrder (line 1022): table lookup with the
JS truthiness fallback `order[type] || 50` (a stored zero would also fall
through to 50; no stored value is zero). -/
def getNavigationOrder (t : Str) : Nat :=
  match navOrderTable.lookup t with
  | some v => if v == 0 then 50 else v
  | none => 50

/-- Tag-closing match attempt for step 3 of sanitizeMDXContent
(lines 1847-1850).  The regexp is: left angle, a letter then a run of
letters or digits (the tag name), optional whitespace, a negative
lookahead refusing a self-closing tag, a run without a right angle, then
the right angle.  Given the characters after the left angle, a match
exists exactly when the first character is a letter, a right angle occurs
later, and the character just before that first right angle is not a
slash (the compiled form of the lookahead).  Returns the tag name, the
full matched text and the remainder. -/
def tagMatch (l : Str) : Option (Str × Str × Str) :=
  match l with
  | [] => none
  | c :: rest =>
    if isAlphaCh c then
      match splitUntil '>' l with
      | some (inside, rem) =>
        if inside.getLast? == some '/' then none
        else some (c :: rest.takeWhile isAlnumCh, '<' :: (inside ++ ['>']), rem)
      | none => none
    else none

/-- Length bound for tagMatch, used for termination below. -/
def tagMatch_len : ∀ (l tag full rem : Str), tagMatch l = some (tag, full, rem) → rem.length < l.length := by
  intro l tag full rem h
  unfold tagMatch at h
  cases l with
  | nil => simp at h
  | cons c rest =>
    by_cases ha : isAlphaCh c
    · simp [ha] at h
      cases hsp : splitUntil '>' (c :: rest) with
      | none => rw [hsp] at h; simp at h
      | some pr =>
        rw [hsp] at h
        obtain ⟨inside, rem2⟩ := pr
        have hlen := splitUntil_len '>' (c :: rest) inside rem2 hsp
        simp at h
        rw [← h.2.2.2]
        exact hlen
    · simp [ha] at h

/-- Step 3 of sanitizeMDXContent (lines 1847-1850): every matched tag is
kept as is when its text holds a slash, and otherwise gets a synthetic
closing tag appended. -/
def closeTags : Str → Str
  | [] => []
  | c :: rest =>
    if c == '<' then
      match h : tagMatch rest with
      | some (tag, full, rem) =>
        (if hasSub full ("/".data) then full
         else full ++ ("</".data) ++ tag ++ (">".data)) ++ closeTags rem
      | none => c :: closeTags rest
    else c :: closeTags rest
termination_by l => l.length
decreasing_by
  all_goals first
  | (have h1 := tagMatch_len rest _ _ _ h
     simp only [List.length_cons]
     omega)
  | (simp only [List.length_cons]; omega)

/-- Step 4 of sanitizeMDXContent (lines 1852-1855): global replacement of
the regexp (left brace, a run without a right brace holding at least one
digit, right brace) by a JSX comment wrapping the run.  Because the inner
class excludes the right brace, a match at a left brace always ends at the
first right brace after it, and succeeds exactly when the run between
holds a digit. -/
def neutralizeDigitBraces : Str → Str
  | [] => []
  | c :: rest =>
    if c == '{' then
      match h : splitUntil '}' rest with
      | some (content, rem) =>
        if content.any isDigitCh then
          ("\x7b/* ".data) ++ content ++ (" */\x7d".data) ++ neutralizeDigitBraces rem
        else c :: neutralizeDigitBraces rest
      | none => c :: neutralizeDigitBraces rest
    else c :: neutralizeDigitBraces rest
termination_by l => l.length
decreasing_by
  all_goals first
  | (have h1 := splitUntil_len '}' rest _ _ h
     simp only [List.length_cons]
     omega)
  | (simp only [List.length_cons]; omega)

/-- Match attempt of step 5 of sanitizeMDXContent (line 1857) at a left
brace: the regexp (left brace, a run without a right brace, end of line)
with the multiline flag.  Given the characters after the left brace, the
greedy run extends to the last possible end-of-line position before the
next right brace, or to the end of input.  Returns the remainder after
the matched span, or none when the next right brace comes before any
newline (then no end-of-line position is reachable). -/
def matchTail : Str → Option Str
  | [] => some []
  | c :: rest =>
    if c == '}' then none
    else if c == '\n' then
      match matchTail rest with
      | some r => some r
      | none => some (c :: rest)
    else matchTail rest

/-- Length bound for matchTail, used for termination below. -/
def matchTail_le : ∀ (l r : Str), matchTail l = some r → r.length ≤ l.length := by
  intro l
  induction l with
  | nil => intro r h; simp [matchTail] at h; simp [← h]
  | cons c rest ih =>
    intro r h
    simp only [matchTail] at h
    by_cases hc : c = '}'
    · simp [hc] at h
    · simp [hc] at h
      by_cases hn : c = '\n'
      · simp [hn] at h
        cases hm : matchTail rest with
        | some r2 =>
          rw [hm] at h
          simp at h
          have := ih r2 hm
          subst h
          simp only [List.length_cons]
          omega
        | none =>
          rw [hm] at h
          simp at h
          simp [← h, hn]
      · simp [hn] at h
        have := ih r h
        simp only [List.length_cons]
        omega

/-- Step 5 of sanitizeMDXContent (line 1857): global removal of every
match of the unclosed-expression regexp, scanning left to right and
resuming after each removed span. -/
def replaceUnclosed : Str → Str
  | [] => []
  | c :: rest =>
    if c == '{' then
      match h : matchTail rest with
      | some rem => replaceUnclosed rem
      | none => c :: replaceUnclosed rest
    else c :: replaceUnclosed rest
termination_by l => l.length
decreasing_by
  all_goals first
  | (have h1 := matchTail_le rest _ h
     simp only [List.length_cons]
     omega)
  | (simp only [List.length_cons]; omega)

/-- The whitespace-then-newline fragment of the frontmatter regexp in
step 6 of sanitizeMDXContent (line 1859): a greedy whitespace run that
must end with a newline.  Backtracking makes the consumed newline the
last newline inside the whitespace run; the remainder after it is
returned, or none when the whitespace run holds no newline. -/
def wsThenNl : Str → Option Str
  | [] => none
  | c :: rest =>
    if c == '\n' then
      match wsThenNl rest with
      | some r => some r
      | none => some rest
    else if isWS c then wsThenNl rest
    else none

/-- The lazy group of the frontmatter regexp: the shortest run before a
newline followed by three dashes; returns the group and the remainder
after the three dashes. -/
def splitAtNlDashes : Str → Option (Str × Str)
  | [] => none
  | c :: rest =>
    if c == '\n' && isPrefixB ("---".data) rest then some ([], rest.drop 3)
    else
      match splitAtNlDashes rest with
      | some (g, rem) => some (c :: g, rem)
      | none => none

/-- One attempt of the frontmatter regexp of step 6 (line 1859) at a
line start: three dashes, whitespace ending in a newline, the lazy group,
then newline and three dashes.  Returns the group and the remainder. -/
def fmMatchAt (l : Str) : Option (Str × Str) :=
  if isPrefixB ("---".data) l then
    match wsThenNl (l.drop 3) with
    | some r => splitAtNlDashes r
    | none => none
  else none

/-- The replacement applied to a matched frontmatter block (lines
1860-1866): the block lines that hold doubled braces are dropped, the
rest are rejoined between dash fences.  The catch arm of the source is
dead code since nothing in the try arm can throw. -/
def cleanYaml (grp : Str) : Str :=
  joinNl ((splitLines grp).filter
    (fun line => !(hasSub line ("\x7b\x7b".data)) && !(hasSub line ("\x7d\x7d".data))))

/-- Step 6 of sanitizeMDXContent (lines 1859-1870): replace the first
match of the multiline frontmatter regexp.  The anchor restricts match
attempts to line starts; the first matching line start wins and only one
replacement happens (the regexp has no global flag). -/
def cleanFMGo (l : Str) : Str :=
  match fmMatchAt l with
  | some (grp, rem) =>
    ("---".data) ++ '\n' :: (cleanYaml grp ++ '\n' :: ("---".data) ++ rem)
  | none =>
    match h : splitFirstNl l with
    | some (line, rest) => line ++ '\n' :: cleanFMGo rest
    | none => l
termination_by l.length
decreasing_by exact splitFirstNl_len l line rest h

/-- EnhancedProjectScanner.sanitizeMDXContent (lines 1840-1872): the six
replacement passes in source order, then the final trim.  The guard for
a falsy argument returns the empty string. -/
def sanitizeMDXContent (content : Str) : Str :=
  if content.isEmpty then []
  else
    jsTrim (cleanFMGo (replaceUnclosed (neutralizeDigitBraces (closeTags (normBr (stripDoctype content))))))

/-- Does a right brace occur before the first newline (and before the end
of input)?  This is the guarantee step 5 leaves for every surviving left
brace. -/
def hasCloseBeforeNl : Str → Bool
  | [] => false
  | c :: rest => c == '}' || (c != '\n' && hasCloseBeforeNl rest)

/-- Every left brace is followed by a right brace later on the same line. -/
def opensClosed : Str → Bool
  | [] => true
  | c :: rest => (c != '{' || hasCloseBeforeNl rest) && opensClosed rest

/-- Right-to-left matching of left braces against later right braces:
the count of unconsumed right braces seen so far, or none once some left
brace finds none left.  A list is open-balanced when the scan succeeds. -/
def availCloses : Str → Option Nat
  | [] => some 0
  | c :: rest =>
    match availCloses rest with
    | none => none
    | some n =>
      if c == '}' then some (n + 1)
      else if c == '{' then (if n == 0 then none else some (n - 1))
      else some n

/-- Every left brace in the list is matched by a distinct later right
brace (unmatched right braces are allowed). -/
def opensMatched (l : Str) : Bool := (availCloses l).isSome

/-- Decimal rendering of a number interpolated into a JS template. -/
def natStr (n : Nat) : Str := (Nat.repr n).data

/-- path.join for the plain two-segment joins in this code base (no dot
segments occur in those calls). -/
def pathJoin (a b : Str) : Str := a ++ ('/' :: b)

/-- path.relative for the calls in this code base, where the first
argument is always an ancestor directory of the second: the prefix and
its separator are stripped. -/
def pathRelative (base p : Str) : Str :=
  if isPrefixB (base ++ ['/']) p then p.drop (base.length + 1) else p

/-- Boolean suffix test. -/
def endsWithB (l pat : Str) : Bool := isPrefixB pat.reverse l.reverse

/-- String.prototype.replace with a plain string pattern: only the first
occurrence is replaced. -/
def replaceOnce (pat rep : Str) : Str → Str
  | [] => []
  | c :: rest =>
    if isPrefixB pat (c :: rest) then rep ++ (c :: rest).drop pat.length
    else c :: replaceOnce pat rep rest

/-- The capitalisation `documentType.charAt(0).toUpperCase() +
documentType.slice(1)` from generateCleanFrontmatter (line 1877). -/
def capitalizeFirst : Str → Str
  | [] => []
  | c :: rest => upperChar c :: rest

/-- The date part of an ISO timestamp: `toISOString().split('T')[0]`.
The current instant is passed in as the ISO timestamp string, so that
time-dependence is explicit in every definition that uses it. -/
def isoDate (now : Str) : Str := now.takeWhile (fun c => c != 'T')

/-- Property read on a JS object modelled as a key-value list. -/
def jsGet (obj : List (Str × Str)) (k : Str) : Option Str := obj.lookup k

/-- Template interpolation of a possibly undefined JS value: a missing
property prints as the literal text undefined. -/
def jsUndef (v : Option Str) : Str :=
  match v with
  | some s => s
  | none => ("undefined".data)

/-- One project descriptor from selective-project-config.cjs
(PROJECT_CONFIG entries). -/
structure ProjectConfig where
  id : Str
  displayName : Str
  sourcePath : Str
  outputPath : Str
  category : Str
  priority : Nat
  documentTypes : List Str
  scanStrategy : Str
  primaryFiles : List Str
  skipPatterns : List Str
deriving Repr, DecidableEq

/-- The string-valued properties of the project object literal built by
EnhancedProjectScanner.scan (lines 1218-1229).  The descriptor id is
stored under the key name; no key id is ever set.  The number and array
properties (priority, documentTypes, primaryFiles, skipPatterns) are
carried alongside in the ProjectConfig argument of each definition. -/
def mkProjectObj (c : ProjectConfig) : List (Str × Str) :=
  [(("name".data), c.id),
   (("path".data), c.sourcePath),
   (("displayName".data), c.displayName),
   (("category".data), c.category),
   (("scanStrategy".data), c.scanStrategy),
   (("outputPath".data), c.outputPath)]

/-- One scanned source file (scanSelectiveProjectFiles, lines 1555-1562).
The modification time is not carried: nothing downstream reads it. -/
structure SFile where
  path : Str
  relativePath : Str
  content : Str
  classification : Str
  size : Nat
deriving Repr, DecidableEq

/-- EnhancedProjectScanner.generateCleanFrontmatter (lines 1875-1891).
The object argument is the scan-built project object; the source reads
its displayName, category and id properties (the last one is never set
by scan, so it interpolates as undefined). -/
def generateCleanFrontmatter (obj : List (Str × Str)) (documentType : Str)
    (source : Option SFile) (now : Str) : Str :=
  let entries : List (Str × Str) :=
    [(("title".data),
      jsUndef (jsGet obj ("displayName".data)) ++ (" - ".data) ++ capitalizeFirst documentType),
     (("description".data),
      documentType ++ (" documentation for ".data) ++ jsUndef (jsGet obj ("displayName".data))),
     (("category".data), jsUndef (jsGet obj ("category".data))),
     (("lastUpdated".data), isoDate now),
     (("project".data), jsUndef (jsGet obj ("id".data)))] ++
    (match source with
     | some f => [(("sourceFile".data), f.relativePath)]
     | none => [])
  ("---".data) ++ '\n' ::
    (joinNl (entries.map (fun e => e.1 ++ (": \"".data) ++ e.2 ++ ("\"".data)))
      ++ '\n' :: ("---".data))

/-- EnhancedProjectScanner.generateIntroductionContent (lines 1894-1923). -/
def generateIntroductionContent (cfg : ProjectConfig) (files : List SFile) (now : Str) : Str :=
  let readmeFile := files.find? (fun f => hasSub (lowerStr f.relativePath) ("readme".data))
  let description :=
    match readmeFile with
    | some f => joinNl ((splitLines f.content).take 3)
    | none => cfg.displayName ++ (" is a professional project in the ".data) ++ cfg.category ++ (" category.".data)
  ("# ".data) ++ cfg.displayName ++ ("\n\n".data) ++
  sanitizeMDXContent description ++
  ("\n\n## Overview\n\nThis project is part of the LostMind AI ecosystem and represents our work in ".data) ++
  replaceOnce ("-".data) (" ".data) cfg.category ++
  (".\n\n## Navigation\n\n- [README](./readme) - Complete project documentation\n- [Architecture](./architecture) - Technical architecture details\n".data) ++
  (if cfg.documentTypes.any (fun t => t == ("development".data))
   then ("- [Development](./development) - Development setup and guidelines".data)
   else []) ++
  ("\n\n## Project Details\n\n- **Category**: ".data) ++ cfg.category ++
  ("\n- **Priority**: ".data) ++ natStr cfg.priority ++
  ("\n- **Scan Strategy**: ".data) ++ cfg.scanStrategy ++
  ("\n- **Last Updated**: ".data) ++ isoDate now ++
  ("\n\n---\n\n*This documentation was automatically generated from project sources.*".data)

/-- EnhancedProjectScanner.generateDefaultReadme (lines 1927-1952). -/
def generateDefaultReadme (cfg : ProjectConfig) : Str :=
  ("# ".data) ++ cfg.displayName ++
  ("\n\nWelcome to ".data) ++ cfg.displayName ++
  (", a key component of the LostMind AI ecosystem.\n\n## About\n\nThis project focuses on ".data) ++
  replaceOnce ("-".data) (" ".data) cfg.category ++
  (" and is maintained as part of our professional development infrastructure.\n\n## Status\n\n- **Project Category**: ".data) ++
  cfg.category ++
  ("\n- **Priority Level**: ".data) ++ natStr cfg.priority ++
  ("\n- **Documentation Strategy**: ".data) ++ cfg.scanStrategy ++
  ("\n\n## Getting Started\n\nPlease refer to the source project for detailed setup and usage instructions.\n\n## Support\n\nFor questions and support, please contact the LostMind AI team.\n\n---\n\n*Note: This is auto-generated documentation. Source README file was not found at the expected location.*".data)

/-- EnhancedProjectScanner.generateDefaultArchitecture (lines 1955-1987). -/
def generateDefaultArchitecture (cfg : ProjectConfig) : Str :=
  ("# Architecture Overview\n\n## ".data) ++ cfg.displayName ++
  (" Architecture\n\nThis document outlines the architectural design and technical decisions for ".data) ++
  cfg.displayName ++
  (".\n\n## System Overview\n\n".data) ++ cfg.displayName ++
  (" is designed as a ".data) ++ replaceOnce ("-".data) (" ".data) cfg.category ++
  (" solution with focus on scalability and maintainability.\n\n## Key Components\n\n- **Core Infrastructure**: Primary application logic\n- **Data Layer**: Information processing and storage\n- **Integration Layer**: External service connections\n- **Presentation Layer**: User interface and API endpoints\n\n## Technical Stack\n\nDetails about the technical implementation are available in the source project documentation.\n\n## Design Decisions\n\nArchitecture decisions are driven by:\n- Performance requirements\n- Scalability needs\n- Maintainability goals\n- Integration capabilities\n\n---\n\n*Note: This is auto-generated architecture documentation. Source architecture files were not found.*".data)

/-- EnhancedProjectScanner.generateDefaultDevelopment (lines 1990-2022). -/
def generateDefaultDevelopment (cfg : ProjectConfig) : Str :=
  ("# Development Guide\n\n## ".data) ++ cfg.displayName ++
  (" Development\n\nThis guide covers development setup and workflow for ".data) ++
  cfg.displayName ++
  (".\n\n## Prerequisites\n\nPlease refer to the source project for specific prerequisites and requirements.\n\n## Setup\n\n1. Clone the repository\n2. Install dependencies\n3. Configure environment\n4. Run development server\n\n## Development Workflow\n\nStandard development practices apply:\n- Feature branch workflow\n- Code review process\n- Testing requirements\n- Documentation updates\n\n## Contributing\n\nContributions are welcome. Please follow the established coding standards and testing procedures.\n\n---\n\n*Note: This is auto-generated development documentation. Source development files were not found.*".data)

/-- The per-type source lookup of generateSelectiveDocument
(lines 1588-1598): the readme type matches on the relative path only,
architecture and development match on classification or relative path.
The introduction type and unknown types use no primary source. -/
def selectiveSource (files : List SFile) (documentType : Str) : Option SFile :=
  if documentType == ("readme".data) then
    files.find? (fun f => hasSub (lowerStr f.relativePath) ("readme".data))
  else if documentType == ("architecture".data) then
    files.find? (fun f =>
      f.classification == ("architecture".data) || hasSub (lowerStr f.relativePath) ("architecture".data))
  else if documentType == ("development".data) then
    files.find? (fun f =>
      f.classification == ("development".data) || hasSub (lowerStr f.relativePath) ("development".data))
  else none

/-- The switch of generateSelectiveDocument (lines 1584-1603): the body
for the four supported types, none for an unknown type (the default arm
logs a warning and returns null). -/
def selectiveBody (cfg : ProjectConfig) (files : List SFile) (documentType : Str) (now : Str) : Option Str :=
  if documentType == ("introduction".data) then
    some (generateIntroductionContent cfg files now)
  else if documentType == ("readme".data) then
    some (match selectiveSource files documentType with
          | some f => sanitizeMDXContent f.content
          | none => generateDefaultReadme cfg)
  else if documentType == ("architecture".data) then
    some (match selectiveSource files documentType with
          | some f => sanitizeMDXContent f.content
          | none => generateDefaultArchitecture cfg)
  else if documentType == ("development".data) then
    some (match selectiveSource files documentType with
          | some f => sanitizeMDXContent f.content
          | none => generateDefaultDevelopment cfg)
  else none

/-- EnhancedProjectScanner.validateMDXSyntax (lines 2026-2069): the
structural pre-check before a document is written.  The open and close
tag count comparison (lines 2042-2048) only logs and never produces an
issue; the catch arm is dead since nothing in the try arm can throw. -/
def validateMDXSyntax (content : Str) : Bool :=
  let issue1 := hasSub content ("\x7b".data) && !(hasSub content ("\x7d".data))
  let issue2 := hasSub content ("<!DOCTYPE".data)
  let issue3 :=
    match fmMatchAt content with
    | some (yaml, _) => hasSub yaml ("\x7b\x7b".data) || hasSub yaml ("\x7d\x7d".data)
    | none => false
  !(issue1 || issue2 || issue3)

/-- One filesystem effect of the pipeline. -/
inductive WriteOp where
  | mkdirp (p : Str)
  | fwrite (p : Str) (content : Str)
deriving Repr, DecidableEq

/-- The record returned for a generated document (lines 1619-1624). -/
structure GenDoc where
  type : Str
  classification : Str
  path : Str
  relativePath : Str
deriving Repr, DecidableEq

/-- The filesystem as seen by the pipeline: a list of files with their
contents.  Directory entries are not modelled; every configured pattern
in this repository names a file. -/
abbrev FS := List (Str × Str)

/-- fs.readFile over the filesystem model. -/
def fsRead (fs : FS) (p : Str) : Option Str := fs.lookup p

/-- EnhancedProjectScanner.pathExists (lines 1817-1824): an fs.access
probe. -/
def pathExistsM (fs : FS) (p : Str) : Bool := (fsRead fs p).isSome

/-- EnhancedProjectScanner.glob (lines 1826-1837): the simplified helper
returns the pattern itself when it exists as a literal path and the empty
list otherwise; no wildcard expansion ever happens. -/
def glob (fs : FS) (pattern : Str) : List Str :=
  if pathExistsM fs pattern then [pattern] else []

/-- The per-path body of the scanSelectiveProjectFiles loop (lines
1544-1563): skip-pattern filtering, then stat, read and classify.  A
skipped or unreadable path contributes nothing. -/
def mkScannedFile (fs : FS) (cfg : ProjectConfig) (filePath : Str) : Option SFile :=
  if cfg.skipPatterns.any (fun sp => hasSub filePath sp) then none
  else
    match fsRead fs filePath with
    | some content =>
      some { path := filePath,
             relativePath := pathRelative cfg.sourcePath filePath,
             content := content,
             classification := classify filePath content,
             size := content.length }
    | none => none

/-- EnhancedProjectScanner.scanSelectiveProjectFiles (lines 1535-1572). -/
def scanSelectiveProjectFiles (fs : FS) (cfg : ProjectConfig) : List SFile :=
  cfg.primaryFiles.foldl (fun acc pat =>
    acc ++ (glob fs (pathJoin cfg.sourcePath pat)).filterMap (mkScannedFile fs cfg)) []

/-- EnhancedProjectScanner.generateSelectiveDocument (lines 1574-1629).
Returns the processed record (null when the type is unknown or the
pre-check fails) together with the filesystem effects; in dry-run mode
the write is skipped but everything else still runs. -/
def generateSelectiveDocument (dryRun : Bool) (cfg : ProjectConfig) (files : List SFile)
    (documentType : Str) (outputDir : Str) (now : Str) : Option GenDoc × List WriteOp :=
  let fileName := documentType ++ (".mdx".data)
  let filePath := pathJoin outputDir fileName
  match selectiveBody cfg files documentType now with
  | none => (none, [])
  | some content =>
    let frontmatter :=
      generateCleanFrontmatter (mkProjectObj cfg) documentType (selectiveSource files documentType) now
    let finalContent := frontmatter ++ ("\n\n".data) ++ content
    if validateMDXSyntax finalContent then
      (some { type := documentType,
              classification := documentType,
              path := pathRelative ("./apps/docs".data) filePath,
              relativePath := pathRelative ("./apps/docs/projects".data) filePath },
       if dryRun then [] else [WriteOp.fwrite filePath finalContent])
    else (none, [])

/-- EnhancedProjectScanner.processSelectiveProject (lines 1503-1533):
make the output directory (unless dry-run), scan the source files, then
generate one document per declared type, keeping the non-null records. -/
def processSelectiveProject (dryRun : Bool) (fs : FS) (cfg : ProjectConfig) (now : Str) :
    List GenDoc × List WriteOp :=
  let outputDir := cfg.outputPath
  let mk : List WriteOp := if dryRun then [] else [WriteOp.mkdirp outputDir]
  let files := scanSelectiveProjectFiles fs cfg
  let step := cfg.documentTypes.foldl (fun acc dt =>
    let r := generateSelectiveDocument dryRun cfg files dt outputDir now
    (acc.1 ++ (match r.1 with | some d => [d] | none => []), acc.2 ++ r.2)) ([], [])
  (step.1, mk ++ step.2)

/-- A navigation entry built by NavigationBuilder.addProject (lines
1173-1177).  The source copies file.title and file.outputPath; both
properties are absent on the records produced by the selective pipeline,
so they are modelled as options, none standing for the JS undefined. -/
structure NavEntry where
  title : Option Str
  path : Option Str
  category : Str
deriving Repr, DecidableEq

/-- Stable insertion of a record into a list sorted by navigation order
(the comparator of lines 1165-1169; insertion after equal keys models the
stable engine sort). -/
def insertByNavOrder (e : GenDoc) : List GenDoc → List GenDoc
  | [] => [e]
  | x :: xs =>
    if getNavigationOrder e.classification < getNavigationOrder x.classification
    then e :: x :: xs
    else x :: insertByNavOrder e xs

/-- The sort of NavigationBuilder.addProject. -/
def sortByNavOrder (l : List GenDoc) : List GenDoc :=
  l.foldl (fun acc e => insertByNavOrder e acc) []

/-- NavigationBuilder.addProject (lines 1162-1179) for one project. -/
def navAddProject (projectName : Str) (docs : List GenDoc) : Str × List NavEntry :=
  (projectName,
   (sortByNavOrder (docs.filter (fun d =>
      d.classification != ("code".data) && d.classification != ("misc".data)))).map
     (fun d => { title := none, path := none, category := d.classification }))

/-- The page list of one group in NavigationBuilder.generateMintlifyConfig
(line 1187): each entry path gets two replace calls.  A missing path is a
JS undefined and the method call on it throws, modelled by none. -/
def mintlifyPages (entries : List NavEntry) : Option (List Str) :=
  entries.foldr (fun e acc =>
    match acc, e.path with
    | some rest, some p =>
      some (replaceOnce ("./apps/docs/".data) [] (replaceOnce (".mdx".data) [] p) :: rest)
    | _, _ => none) (some [])

/-- A canonical rendering standing for the JSON.stringify serialisation
of the navigation object in NavigationBuilder.save (line 1195); no claim
depends on the exact JSON bytes, only on whether serialisation happens. -/
def renderNavGroups (groups : List (Str × List Str)) : Str :=
  joinNl (groups.map (fun g => g.1 ++ (": ".data) ++ joinNl g.2))

/-- NavigationBuilder.generateMintlifyConfig over all groups: throws
(none) as soon as one entry lacks a path. -/
def mintlifySerialize (groups : List (Str × List NavEntry)) : Option Str :=
  (groups.foldr (fun g acc =>
    match acc, mintlifyPages g.2 with
    | some rest, some pages => some ((g.1, pages) :: rest)
    | _, _ => none) (some [])).map renderNavGroups

/-- EnhancedProjectScanner.generateSummary (lines 1733-1753) reads
p.files.length on each project object; the selective scan never sets a
files property, so the read throws (none) whenever at least one project
was selected.  With zero projects the summary serialises fine; its body
embeds the full run timestamp. -/
def summarySerialize (cfgs : List ProjectConfig) (now : Str) : Option Str :=
  match cfgs with
  | [] => some (("generatedAt: ".data) ++ now ++ ("\ntotalProjects: 0".data))
  | _ :: _ => none

/-- The navigation and summary output paths of scan (lines 1247 and
1734), after the dot-dot segment is folded by path.join. -/
def navJsonPath : Str := ("./apps/docs/navigation.json".data)

/-- The process-wide summary file path. -/
def summaryJsonPath : Str := ("./apps/docs/project-summary.json".data)

/-- The outcome of one selective scan. -/
structure ScanOutcome where
  projects : List ProjectConfig
  docs : List (Str × List GenDoc)
  nav : List (Str × List NavEntry)
  writes : List WriteOp
deriving Repr, DecidableEq

/-- EnhancedProjectScanner.scan, selective version (lines 1207-1257):
filter the configured projects by source-path existence, process each,
accumulate navigation, then (unless dry-run) save navigation and summary.
The two serialisations throw on the selective records (missing outputPath
and files properties), which the model reports as none; the thrown error
reaches the catch in main after the per-project documents were already
written. -/
def scanSelective (dryRun : Bool) (fs : FS) (cfgs : List ProjectConfig) (now : Str) :
    Option ScanOutcome :=
  let selected := cfgs.filter (fun c => pathExistsM fs c.sourcePath)
  let per := selected.map (fun c => (c, processSelectiveProject dryRun fs c now))
  let docs := per.map (fun pr => (pr.1.id, pr.2.1))
  let nav := per.map (fun pr => navAddProject pr.1.id pr.2.1)
  let docWrites := (per.map (fun pr => pr.2.2)).flatten
  if dryRun then
    some { projects := selected, docs := docs, nav := nav, writes := docWrites }
  else
    match mintlifySerialize nav with
    | none => none
    | some navJson =>
      match summarySerialize selected now with
      | none => none
      | some summary =>
        some { projects := selected, docs := docs, nav := nav,
               writes := docWrites ++
                 [WriteOp.fwrite navJsonPath navJson, WriteOp.fwrite summaryJsonPath summary] }

/-- The project shape consumed by the legacy generateProjectIndex
(lines 1687-1731): analyzeProject supplies these fields. -/
structure LegacyProject where
  name : Str
  displayName : Str
  description : Str
  version : Str
  category : Str
  priority : Nat
  dependencies : List (Str × Str)
deriving Repr, DecidableEq

/-- The processed-file shape consumed by generateProjectIndex. -/
structure LegacyFile where
  title : Str
  outputPath : Str
deriving Repr, DecidableEq

/-- path.basename with an extension argument: the suffix is stripped when
present. -/
def basenameExt (p suffix : Str) : Str :=
  let b := basename p
  if endsWithB b suffix then b.take (b.length - suffix.length) else b

/-- EnhancedProjectScanner.generateProjectIndex (lines 1687-1731): the
index document written as index.mdx for a legacy project.  Its footer
interpolates the full ISO timestamp, not only the date part. -/
def generateProjectIndexContent (p : LegacyProject) (processedFiles : List LegacyFile) (now : Str) : Str :=
  ("---\ntitle: \"".data) ++ p.displayName ++
  ("\"\ndescription: \"".data) ++ p.description ++
  ("\"\ncategory: \"project-overview\"\nproject: \"".data) ++ p.name ++
  ("\"\nversion: \"".data) ++ p.version ++
  ("\"\nlastUpdated: \"".data) ++ isoDate now ++
  ("\"\n---\n\n# ".data) ++ p.displayName ++
  ("\n\n".data) ++ p.description ++
  ("\n\n## Overview\n\nThis project is part of the LostMind AI ecosystem and falls under the **".data) ++
  p.category ++
  ("** category.\n\n## Available Documentation\n\n".data) ++
  joinNl (processedFiles.map (fun f =>
    ("- [".data) ++ f.title ++ ("](./".data) ++ basenameExt f.outputPath (".mdx".data) ++ (")".data))) ++
  ("\n\n## Project Information\n\n- **Version**: ".data) ++ p.version ++
  ("\n- **Category**: ".data) ++ p.category ++
  ("\n- **Priority**: ".data) ++ natStr p.priority ++
  ("\n- **Files Processed**: ".data) ++ natStr processedFiles.length ++
  ("\n\n## Dependencies\n\n".data) ++
  (if p.dependencies.isEmpty then ("No dependencies found.".data)
   else joinNl (p.dependencies.map (fun d => ("- ".data) ++ d.1 ++ (": ".data) ++ d.2))) ++
  ("\n\n---\n*This index was automatically generated. Last updated: ".data) ++ now ++
  ("*\n".data)

/-- Issues produced by one validator check: error and warning message
lists in push order. -/
structure VResult where
  errors : List Str
  warnings : List Str
deriving Repr, DecidableEq

/-- Concatenation of check results in pass order. -/
def vcat (a b : VResult) : VResult := ⟨a.errors ++ b.errors, a.warnings ++ b.warnings⟩

/-- The heading test of DocumentationValidator.checkMDXSyntax (line 72):
one or more hash marks, optional whitespace, then a digit. -/
def headingDigit (line : Str) : Bool :=
  match line with
  | '#' :: rest =>
    match (rest.dropWhile (fun c => c == '#')).dropWhile isWS with
    | c :: _ => isDigitCh c
    | [] => false
  | _ => false

/-- The expression test of checkMDXSyntax (line 77): a left brace whose
run up to the first right brace holds a digit, anywhere in the line. -/
def hasDigitBrace : Str → Bool
  | [] => false
  | c :: rest =>
    if c == '{' then
      (match splitUntil '}' rest with
       | some (content, _) => content.any isDigitCh || hasDigitBrace rest
       | none => false)
    else hasDigitBrace rest

/-- One attempt of the markdown link regexp after an opening bracket:
link text up to the first closing bracket, an opening parenthesis, then
the target up to the first closing parenthesis. -/
def linkTry (l : Str) : Option (Str × Str × Str) :=
  match splitUntil ']' l with
  | none => none
  | some (text, r1) =>
    match r1 with
    | [] => none
    | c :: r2 =>
      if c == '(' then
        match splitUntil ')' r2 with
        | some (url, r3) => some (text, url, r3)
        | none => none
      else none

/-- Length bound for linkTry, used for termination below. -/
def linkTry_len : ∀ (l t u rem : Str), linkTry l = some (t, u, rem) → rem.length < l.length := by
  intro l t u rem h
  unfold linkTry at h
  cases h1 : splitUntil ']' l with
  | none => rw [h1] at h; simp at h
  | some pr1 =>
    rw [h1] at h
    obtain ⟨text, r1⟩ := pr1
    have hl1 := splitUntil_len ']' l text r1 h1
    simp only at h
    cases r1 with
    | nil => simp at h
    | cons c r2 =>
      simp only [List.length_cons] at hl1
      by_cases hc : c = '('
      · simp [hc] at h
        cases h2 : splitUntil ')' r2 with
        | none => rw [h2] at h; simp at h
        | some pr2 =>
          rw [h2] at h
          obtain ⟨url, r3⟩ := pr2
          have hl2 := splitUntil_len ')' r2 url r3 h2
          simp at h
          rw [← h.2.2]
          omega
      · simp [hc] at h

/-- The global scan of the markdown link regexp (checkMDXSyntax line 88
and checkLinks line 125): successive text-target pairs; a failed attempt
advances one character. -/
def linkScan : Str → List (Str × Str)
  | [] => []
  | c :: rest =>
    if c == '[' then
      match h : linkTry rest with
      | some (t, u, rem) => (t, u) :: linkScan rem
      | none => linkScan rest
    else linkScan rest
termination_by l => l.length
decreasing_by
  all_goals first
  | (have h1 := linkTry_len rest _ _ _ h
     simp only [List.length_cons]
     omega)
  | (simp only [List.length_cons]; omega)

/-- Is a closing parenthesis present. -/
def anyCloseParen (l : Str) : Bool := l.any (fun c => c == ')')

/-- The guard regexp of checkMDXSyntax (line 87): an opening bracket,
anything, a closing bracket immediately followed by an opening
parenthesis, anything, a closing parenthesis. -/
def seekBracketParen : Str → Bool
  | [] => false
  | c :: rest =>
    (c == ']' &&
      (match rest with
       | '(' :: r2 => anyCloseParen r2
       | _ => false)) || seekBracketParen rest

/-- The test of the guard regexp before the per-line link scan. -/
def linkLike : Str → Bool
  | [] => false
  | c :: rest => (c == '[' && seekBracketParen rest) || linkLike rest

/-- The issues of one line in DocumentationValidator.checkMDXSyntax
(lines 68-100): the heading error, the expression warning, then the
empty-text and empty-target issues of each link on the line. -/
def lineIssues (fpath : Str) (idx : Nat) (line : Str) : VResult :=
  let lineNum := natStr (idx + 1)
  let headErr : List Str :=
    if headingDigit line then
      [fpath ++ (":".data) ++ lineNum ++ (" - Heading starts with number: \"".data) ++ jsTrim line ++ ("\"".data)]
    else []
  let jsxWarn : List Str :=
    if hasDigitBrace line && !(hasSub line ("```".data)) then
      [fpath ++ (":".data) ++ lineNum ++ (" - Potential invalid JSX expression: \"".data) ++ jsTrim line ++ ("\"".data)]
    else []
  let links := if linkLike line then linkScan line else []
  let textWarns := links.filterMap (fun tu =>
    if (jsTrim tu.1).isEmpty then
      some (fpath ++ (":".data) ++ lineNum ++ (" - Empty link text: [".data) ++ tu.1 ++ ("](".data) ++ tu.2 ++ (")".data))
    else none)
  let urlErrs := links.filterMap (fun tu =>
    if (jsTrim tu.2).isEmpty then
      some (fpath ++ (":".data) ++ lineNum ++ (" - Empty link URL: [".data) ++ tu.1 ++ ("](".data) ++ tu.2 ++ (")".data))
    else none)
  ⟨headErr ++ urlErrs, jsxWarn ++ textWarns⟩

/-- DocumentationValidator.checkMDXSyntax (lines 63-103): per-line
issues over the split content. -/
def checkMDXSyntax (content fpath : Str) : VResult :=
  ((splitLines content).enum.foldl (fun acc p => vcat acc (lineIssues fpath p.1 p.2)) ⟨[], []⟩)

/-- path.dirname: the part before the last slash; a separator-free path
gives the dot directory. -/
def dirname (p : Str) : Str :=
  let pre := (p.reverse.dropWhile (fun c => c != '/')).reverse
  match pre with
  | [] => (".".data)
  | _ => pre.dropLast

/-- Path split on slashes. -/
def splitSegs (l : Str) : List Str :=
  match h : splitUntil '/' l with
  | some (seg, rest) => seg :: splitSegs rest
  | none => [l]
termination_by l.length
decreasing_by exact splitUntil_len '/' l seg rest h

/-- Dot and dot-dot segment folding of path.resolve. -/
def normalizeSegs : List Str → List Str → List Str
  | acc, [] => acc.reverse
  | acc, s :: rest =>
    if s == (".".data) || s.isEmpty then normalizeSegs acc rest
    else if s == ("..".data) then normalizeSegs (acc.drop 1) rest
    else normalizeSegs (s :: acc) rest

/-- Slash join of path segments. -/
def joinSegs (segs : List Str) : Str :=
  match segs with
  | [] => []
  | [x] => x
  | x :: xs => x ++ '/' :: joinSegs xs

/-- path.resolve(dir, url) for the validator link and image checks:
an absolute target replaces the base, a relative one is appended, then
dot segments fold.  Resolution of a relative base against the process
working directory is modelled as resolution in place; only equality of
resolved paths matters to the access probe. -/
def pathResolve (dir url : Str) : Str :=
  let base := if isPrefixB ("/".data) url then [] else splitSegs dir
  joinSegs (normalizeSegs [] (base ++ splitSegs url))

/-- DocumentationValidator.checkLinks (lines 122-147): external targets
and anchors are skipped; a relative target must resolve to an existing
file. -/
def checkLinks (fs : FS) (content fpath : Str) : VResult :=
  let dir := dirname fpath
  ⟨(linkScan content).filterMap (fun tu =>
      if isPrefixB ("http".data) tu.2 || isPrefixB ("#".data) tu.2 || isPrefixB ("mailto:".data) tu.2 then
        none
      else if pathExistsM fs (pathResolve dir tu.2) then none
      else some (fpath ++ (" - Broken link: [".data) ++ tu.1 ++ ("](".data) ++ tu.2 ++ (")".data))),
   []⟩

/-- The global scan of the image regexp (checkImages line 169): a bang
then a markdown link; a failed attempt advances one character. -/
def imageScan : Str → List (Str × Str)
  | [] => []
  | '!' :: '[' :: r2 =>
    (match h : linkTry r2 with
     | some (alt, src, rem) => (alt, src) :: imageScan rem
     | none => imageScan ('[' :: r2))
  | _ :: rest => imageScan rest
termination_by l => l.length
decreasing_by
  all_goals first
  | (have h1 := linkTry_len r2 _ _ _ h
     simp only [List.length_cons]
     omega)
  | (simp only [List.length_cons]; omega)

/-- DocumentationValidator.checkImages (lines 166-196): a relative image
source must exist (error) and empty alt text warns. -/
def checkImages (fs : FS) (content fpath : Str) : VResult :=
  let dir := dirname fpath
  let ms := imageScan content
  ⟨ms.filterMap (fun av =>
      if isPrefixB ("http".data) av.2 then none
      else if pathExistsM fs (pathResolve dir av.2) then none
      else some (fpath ++ (" - Missing image: ![".data) ++ av.1 ++ ("](".data) ++ av.2 ++ (")".data))),
   ms.filterMap (fun av =>
      if (jsTrim av.1).isEmpty then
        some (fpath ++ (" - Image missing alt text: ".data) ++ av.2)
      else none)⟩

/-- DocumentationValidator.checkFrontmatter (lines 214-241): the
frontmatter block is matched at the start of the document; absent
required fields and absent recommended fields are BOTH pushed to the
warning list, and the check never produces an error. -/
def checkFrontmatter (content fpath : Str) : VResult :=
  match fmMatchAt content with
  | none => ⟨[], [fpath ++ (" - Missing frontmatter".data)]⟩
  | some (fm, _) =>
    let reqW := ([("title".data), ("description".data)]).filterMap (fun f =>
      if hasSub fm (f ++ (":".data)) then none
      else some (fpath ++ (" - Missing required frontmatter field: ".data) ++ f))
    let recW := ([("category".data), ("tags".data), ("lastUpdated".data)]).filterMap (fun f =>
      if hasSub fm (f ++ (":".data)) then none
      else some (fpath ++ (" - Missing recommended frontmatter field: ".data) ++ f))
    ⟨[], reqW ++ recW⟩

/-- One navigation group as parsed from navigation.json.  An empty group
name models both a missing and an empty group property (JS falsy); none
pages models a missing pages property. -/
structure NavGroupJs where
  group : Str
  pages : Option (List Str)
deriving Repr, DecidableEq

/-- The parsed navigation.json: none for the navigation field models a
missing field or one that is not an array. -/
structure NavJson where
  navigation : Option (List NavGroupJs)
deriving Repr, DecidableEq

/-- DocumentationValidator.validateNavigation (lines 243-275).  The file
read and JSON parse are modelled by the optional argument: none stands
for a failed read or parse, which only warns (the JS message carries the
error text). -/
def validateNavigation (fs : FS) (docsDir : Str) (navFile : Option NavJson) : VResult :=
  match navFile with
  | none => ⟨[], [("Could not validate navigation".data)]⟩
  | some nav =>
    match nav.navigation with
    | none => ⟨[("Invalid navigation.json structure".data)], []⟩
    | some groups =>
      groups.foldl (fun acc g =>
        if g.group.isEmpty || g.pages.isNone then
          ⟨acc.errors, acc.warnings ++ [("Navigation group missing required fields".data)]⟩
        else
          vcat acc ⟨(g.pages.getD []).filterMap (fun page =>
            if pathExistsM fs (pathJoin docsDir (page ++ (".mdx".data))) then none
            else some (("Navigation references missing file: ".data) ++ page ++ (".mdx".data))), []⟩)
        ⟨[], []⟩

/-- DocumentationValidator.findFiles with the mdx glob (lines 277-281):
every mdx file under the docs directory. -/
def findMdxFiles (fs : FS) (docsDir : Str) : List Str :=
  (fs.map Prod.fst).filter (fun p => isPrefixB (docsDir ++ ['/']) p && endsWithB p (".mdx".data))

/-- Fold one per-file check over the corpus in file order. -/
def runPhase (fs : FS) (docsDir : Str) (check : Str → Str → VResult) : VResult :=
  (findMdxFiles fs docsDir).foldl (fun acc p =>
    match fsRead fs p with
    | some content => vcat acc (check content p)
    | none => acc) ⟨[], []⟩

/-- The result record of DocumentationValidator.validate (lines 36-40). -/
structure ValidationRun where
  success : Bool
  errors : List Str
  warnings : List Str
deriving Repr, DecidableEq

/-- DocumentationValidator.validate (lines 25-41): the five passes in
source order; the frontmatter pass contributes only its warnings (line
207 spreads issues.warnings and nothing else); success is the emptiness
of the error list. -/
def validate (fs : FS) (docsDir : Str) (navFile : Option NavJson) : ValidationRun :=
  let r := vcat (vcat (vcat (runPhase fs docsDir checkMDXSyntax)
                            (runPhase fs docsDir (checkLinks fs)))
                      (vcat (runPhase fs docsDir (checkImages fs))
                            ⟨[], (runPhase fs docsDir checkFrontmatter).warnings⟩))
                (validateNavigation fs docsDir navFile)
  ⟨r.errors.isEmpty, r.errors, r.warnings⟩

/-- The exit mapping of the validator CLI (line 321):
process.exit(result.success ? 0 : 1). -/
def mainExitCode (fs : FS) (docsDir : Str) (navFile : Option NavJson) : Nat :=
  if (validate fs docsDir navFile).success then 0 else 1

/-- A concrete project descriptor in the shape of the PROJECT_CONFIG
entries, used for concrete evaluations. -/
def exCfg : ProjectConfig :=
  { id := ("p1".data), displayName := ("P One".data), sourcePath := ("/tmp/p1".data),
    outputPath := ("./apps/docs/projects/p1".data), category := ("core-platforms".data),
    priority := 1, documentTypes := [("readme".data)], scanStrategy := ("comprehensive".data),
    primaryFiles := [("README.md".data)], skipPatterns := [] }

/-- A readme source file whose content keeps an unterminated doctype
marker after sanitization. -/
def exFilesDoctype : List SFile :=
  [{ path := ("/tmp/p1/README.md".data), relativePath := ("README.md".data),
     content := ("<!DOCTYPE".data), classification := ("readme".data), size := 9 }]

/-- A filesystem with one readme under the configured source root. -/
def exFS : FS :=
  [(("/tmp/p1/README.md".data), ("# P1\n\nA sample project.".data)),
   (("/tmp/p1".data), [])]

/-- The scanned-file record the selective scanner builds from the
example filesystem and descriptor. -/
def exScanned : SFile :=
  { path := (("/tmp/p1/README.md").data), relativePath := (("README.md").data),
    content := (("# P1\n\nA sample project.").data), classification := (("readme").data),
    size := 23 }

/-- A legacy project record for the index generator. -/
def exLegacy : LegacyProject :=
  { name := ("p1".data), displayName := ("P One".data), description := ("demo".data),
    version := ("1.0.0".data), category := ("ai-services".data), priority := 60,
    dependencies := [] }

/-- Two instants on the same calendar date with different clock times. -/
def exNow1 : Str := ("2025-01-01T10:00:00.000Z".data)

/-- The later instant of the pair. -/
def exNow2 : Str := ("2025-01-01T11:30:00.000Z".data)

/-- The validator docs directory used in concrete evaluations. -/
def exDocsDir : Str := ("./apps/docs/projects".data)

/-- A one-document corpus whose only issues are warnings (the document
has no frontmatter block at all). -/
def exWarnFS : FS :=
  [((("./apps/docs/projects/a.mdx").data), (("x").data))]

/-- A close on the same line survives appending. -/
theorem hasClose_mono (a b : Str) (h : hasCloseBeforeNl a = true) :
    hasCloseBeforeNl (a ++ b) = true := by
  induction a with
  | nil => simp [hasCloseBeforeNl] at h
  | cons c rest ih =>
    simp only [hasCloseBeforeNl, Bool.or_eq_true, Bool.and_eq_true, beq_iff_eq, bne_iff_ne,
      ne_eq] at h
    simp only [List.cons_append, hasCloseBeforeNl, Bool.or_eq_true, Bool.and_eq_true,
      beq_iff_eq, bne_iff_ne, ne_eq]
    rcases h with h | ⟨h1, h2⟩
    · exact Or.inl h
    · exact Or.inr ⟨h1, ih h2⟩

/-- A close found before a seam newline lies before the seam. -/
theorem hasClose_split_nl (a b : Str) (h : hasCloseBeforeNl (a ++ '\n' :: b) = true) :
    hasCloseBeforeNl a = true := by
  induction a with
  | nil => simp [hasCloseBeforeNl] at h
  | cons c rest ih =>
    simp only [List.cons_append, hasCloseBeforeNl, Bool.or_eq_true, Bool.and_eq_true,
      beq_iff_eq, bne_iff_ne, ne_eq] at h
    simp only [hasCloseBeforeNl, Bool.or_eq_true, Bool.and_eq_true, beq_iff_eq, bne_iff_ne,
      ne_eq]
    rcases h with h | ⟨h1, h2⟩
    · exact Or.inl h
    · exact Or.inr ⟨h1, ih h2⟩

/-- The line-local invariant passes to the tail. -/
theorem ocsl_tail (c : Char) (t : Str) (h : opensClosed (c :: t) = true) :
    opensClosed t = true := by
  simp only [opensClosed, Bool.and_eq_true] at h
  exact h.2

/-- A character other than an open brace preserves the invariant. -/
theorem ocsl_cons_ne (c : Char) (t : Str) (hne : c ≠ '{') (h : opensClosed t = true) :
    opensClosed (c :: t) = true := by
  simp only [opensClosed, Bool.and_eq_true, Bool.or_eq_true, bne_iff_ne, ne_eq]
  exact ⟨Or.inl hne, h⟩

/-- The invariant is closed under concatenation: every open of the left
part is already closed inside the left part. -/
theorem ocsl_append (a b : Str) (ha : opensClosed a = true) (hb : opensClosed b = true) :
    opensClosed (a ++ b) = true := by
  induction a with
  | nil => simpa using hb
  | cons c rest ih =>
    simp only [opensClosed, Bool.and_eq_true, Bool.or_eq_true, bne_iff_ne, ne_eq] at ha
    simp only [List.cons_append, opensClosed, Bool.and_eq_true, Bool.or_eq_true, bne_iff_ne,
      ne_eq]
    refine ⟨?_, ih ha.2⟩
    rcases ha.1 with h | h
    · exact Or.inl h
    · exact Or.inr (hasClose_mono rest b h)

/-- Cutting at a newline keeps the invariant on both sides. -/
theorem ocsl_split_nl (a b : Str) (h : opensClosed (a ++ '\n' :: b) = true) :
    opensClosed a = true ∧ opensClosed b = true := by
  induction a with
  | nil =>
    refine ⟨rfl, ?_⟩
    simpa using ocsl_tail '\n' b (by simpa using h)
  | cons c rest ih =>
    simp only [List.cons_append, opensClosed, Bool.and_eq_true, Bool.or_eq_true, bne_iff_ne,
      ne_eq] at h
    obtain ⟨hrest, hb⟩ := ih h.2
    refine ⟨?_, hb⟩
    simp only [opensClosed, Bool.and_eq_true, Bool.or_eq_true, bne_iff_ne, ne_eq]
    refine ⟨?_, hrest⟩
    rcases h.1 with h1 | h1
    · exact Or.inl h1
    · exact Or.inr (hasClose_split_nl rest b h1)

/-- The invariant is inherited by any suffix. -/
theorem ocsl_suffix (a b : Str) (h : opensClosed (a ++ b) = true) : opensClosed b = true := by
  induction a with
  | nil => simpa using h
  | cons c rest ih => exact ih (ocsl_tail c (rest ++ b) (by simpa using h))

/-- When the unclosed-expression regexp fails at an open brace, a close
sits on the same line. -/
theorem mt_none_hasClose (l : Str) (h : matchTail l = none) : hasCloseBeforeNl l = true := by
  induction l with
  | nil => simp [matchTail] at h
  | cons c rest ih =>
    simp only [matchTail] at h
    by_cases hc : c = '}'
    · simp [hasCloseBeforeNl, hc]
    · simp only [hc, if_false, beq_iff_eq] at h
      by_cases hn : c = '\n'
      · simp only [hn, if_true, beq_self_eq_true] at h
        cases hm : matchTail rest with
        | some r => rw [hm] at h; simp at h
        | none => rw [hm] at h; simp at h
      · simp only [hn, if_false, beq_iff_eq] at h
        simp only [hasCloseBeforeNl, Bool.or_eq_true, Bool.and_eq_true, beq_iff_eq,
          bne_iff_ne, ne_eq]
        exact Or.inr ⟨hn, ih h⟩

/-- Conversely, a close on the same line makes the regexp fail. -/
theorem mt_of_hasClose (l : Str) (h : hasCloseBeforeNl l = true) : matchTail l = none := by
  induction l with
  | nil => simp [hasCloseBeforeNl] at h
  | cons c rest ih =>
    simp only [hasCloseBeforeNl, Bool.or_eq_true, Bool.and_eq_true, beq_iff_eq, bne_iff_ne,
      ne_eq] at h
    rcases h with h | ⟨h1, h2⟩
    · simp [matchTail, h]
    · by_cases hc : c = '}'
      · simp [matchTail, hc]
      · simp [matchTail, hc, h1, ih h2]

/-- Unfolding of step 5 at an open brace with a successful match. -/
theorem replaceUnclosed_open_some (rest rem : Str) (hm : matchTail rest = some rem) :
    replaceUnclosed ('{' :: rest) = replaceUnclosed rem := by
  simp only [replaceUnclosed, beq_self_eq_true, if_true]
  split
  · rename_i rem2 heq
    rw [heq] at hm
    injection hm with e
    rw [e]
  · rename_i heq
    rw [heq] at hm
    exact Option.noConfusion hm

/-- Unfolding of step 5 at an open brace with a failed match. -/
theorem replaceUnclosed_open_none (rest : Str) (hm : matchTail rest = none) :
    replaceUnclosed ('{' :: rest) = '{' :: replaceUnclosed rest := by
  simp only [replaceUnclosed, beq_self_eq_true, if_true]
  split
  · rename_i rem2 heq
    rw [heq] at hm
    exact Option.noConfusion hm
  · rfl

/-- Unfolding of step 5 at any other character. -/
theorem replaceUnclosed_cons_ne (c : Char) (rest : Str) (hc : c ≠ '{') :
    replaceUnclosed (c :: rest) = c :: replaceUnclosed rest := by
  simp [replaceUnclosed, hc]

/-- Step 5 keeps a same-line close for the text that follows. -/
theorem hasClose_replaceUnclosed (l : Str) (h : hasCloseBeforeNl l = true) :
    hasCloseBeforeNl (replaceUnclosed l) = true := by
  induction l using replaceUnclosed.induct with
  | case1 => simp [hasCloseBeforeNl] at h
  | case2 c rest hc rem hm ih =>
    exfalso
    have hceq : c = '{' := by simpa using hc
    subst hceq
    simp only [hasCloseBeforeNl, Bool.or_eq_true, Bool.and_eq_true, beq_iff_eq, bne_iff_ne,
      ne_eq] at h
    rcases h with h | ⟨_, h2⟩
    · exact absurd h (by decide)
    · rw [mt_of_hasClose rest h2] at hm
      exact Option.noConfusion hm
  | case3 c rest hc hm ih =>
    have hceq : c = '{' := by simpa using hc
    subst hceq
    simp only [hasCloseBeforeNl, Bool.or_eq_true, Bool.and_eq_true, beq_iff_eq, bne_iff_ne,
      ne_eq] at h
    have h2 : hasCloseBeforeNl rest = true := by
      rcases h with h | ⟨_, h2⟩
      · exact absurd h (by decide)
      · exact h2
    rw [replaceUnclosed_open_none rest hm]
    simp only [hasCloseBeforeNl, Bool.or_eq_true, Bool.and_eq_true, beq_iff_eq, bne_iff_ne,
      ne_eq]
    exact Or.inr ⟨by decide, ih h2⟩
  | case4 c rest hc ih =>
    have hcc : c ≠ '{' := by
      intro e
      rw [e] at hc
      simp at hc
    rw [replaceUnclosed_cons_ne c rest hcc]
    simp only [hasCloseBeforeNl, Bool.or_eq_true, Bool.and_eq_true, beq_iff_eq, bne_iff_ne,
      ne_eq] at h ⊢
    rcases h with h | ⟨h1, h2⟩
    · exact Or.inl h
    · exact Or.inr ⟨h1, ih h2⟩

/-- After step 5, every open brace has a close later on its own line. -/
theorem ocsl_replaceUnclosed (l : Str) : opensClosed (replaceUnclosed l) = true := by
  induction l using replaceUnclosed.induct with
  | case1 => simp [replaceUnclosed, opensClosed]
  | case2 c rest hc rem hm ih =>
    have hceq : c = '{' := by simpa using hc
    subst hceq
    rw [replaceUnclosed_open_some rest rem hm]
    exact ih
  | case3 c rest hc hm ih =>
    have hceq : c = '{' := by simpa using hc
    subst hceq
    rw [replaceUnclosed_open_none rest hm]
    simp only [opensClosed, Bool.and_eq_true, Bool.or_eq_true, bne_iff_ne, ne_eq]
    exact ⟨Or.inr (hasClose_replaceUnclosed rest (mt_none_hasClose rest hm)), ih⟩
  | case4 c rest hc ih =>
    have hcc : c ≠ '{' := by
      intro e
      rw [e] at hc
      simp at hc
    rw [replaceUnclosed_cons_ne c rest hcc]
    simp only [opensClosed, Bool.and_eq_true, Bool.or_eq_true, bne_iff_ne, ne_eq]
    exact ⟨Or.inl hcc, ih⟩

/-- Decomposition delivered by splitFirstNl. -/
theorem splitFirstNl_struct (l ln r : Str) (h : splitFirstNl l = some (ln, r)) :
    l = ln ++ '\n' :: r := by
  induction l generalizing ln r with
  | nil => simp [splitFirstNl] at h
  | cons c rest ih =>
    simp only [splitFirstNl] at h
    by_cases hc : c = '\n'
    · simp [hc] at h
      rw [h.1, ← h.2, hc]
      rfl
    · simp [hc] at h
      cases hsp : splitFirstNl rest with
      | none => rw [hsp] at h; simp at h
      | some pr =>
        rw [hsp] at h
        obtain ⟨ln2, r2⟩ := pr
        simp at h
        rw [← h.1, ← h.2]
        simpa using congrArg (c :: ·) (ih ln2 r2 hsp)

/-- Unfolding of the line split when a newline occurs. -/
theorem splitLines_eq_some (l ln r : Str) (h : splitFirstNl l = some (ln, r)) :
    splitLines l = ln :: splitLines r := by
  rw [splitLines.eq_def]
  split
  · rename_i ln2 r2 heq
    rw [heq] at h
    simp only [Option.some_inj, Prod.mk.injEq] at h
    rw [h.1, h.2]
  · rename_i heq
    rw [heq] at h
    exact Option.noConfusion h

/-- Unfolding of the line split when no newline occurs. -/
theorem splitLines_eq_none (l : Str) (h : splitFirstNl l = none) :
    splitLines l = [l] := by
  rw [splitLines.eq_def]
  split
  · rename_i ln2 r2 heq
    rw [heq] at h
    exact Option.noConfusion h
  · rfl

/-- Every line of a list with the line-local invariant has it too. -/
theorem ocsl_splitLines (g : Str) :
    opensClosed g = true → ∀ x ∈ splitLines g, opensClosed x = true := by
  induction g using splitLines.induct with
  | case1 l ln r heq ih =>
    intro h x hx
    rw [splitLines_eq_some l ln r heq] at hx
    have hs := splitFirstNl_struct _ _ _ heq
    rw [hs] at h
    obtain ⟨hln, hr⟩ := ocsl_split_nl ln r h
    simp only [List.mem_cons] at hx
    rcases hx with hx | hx
    · rw [hx]; exact hln
    · exact ih hr x hx
  | case2 l heq =>
    intro h x hx
    rw [splitLines_eq_none l heq] at hx
    simp at hx
    rw [hx]
    exact h

/-- A newline join of lines with the invariant keeps it. -/
theorem ocsl_joinNl (L : List Str) (h : ∀ x ∈ L, opensClosed x = true) :
    opensClosed (joinNl L) = true := by
  induction L with
  | nil => rfl
  | cons x xs ih =>
    cases xs with
    | nil => simpa [joinNl] using h x (by simp)
    | cons y ys =>
      have hx := h x (by simp)
      have hrest : opensClosed (joinNl (y :: ys)) = true := by
        refine ih ?_
        intro z hz
        exact h z (by simp [hz])
      show opensClosed (x ++ '\n' :: joinNl (y :: ys)) = true
      exact ocsl_append _ _ hx (ocsl_cons_ne '\n' _ (by decide) hrest)

/-- The frontmatter line filter keeps the invariant. -/
theorem ocsl_cleanYaml (g : Str) (h : opensClosed g = true) :
    opensClosed (cleanYaml g) = true := by
  unfold cleanYaml
  refine ocsl_joinNl _ ?_
  intro x hx
  exact ocsl_splitLines g h x (List.mem_filter.mp hx).1

/-- Prefix decomposition delivered by the boolean prefix test. -/
theorem isPrefixB_struct (p l : Str) (h : isPrefixB p l = true) :
    l = p ++ l.drop p.length := by
  induction p generalizing l with
  | nil => simp
  | cons a as ih =>
    cases l with
    | nil => simp [isPrefixB] at h
    | cons b bs =>
      simp only [isPrefixB, Bool.and_eq_true, beq_iff_eq] at h
      simp only [List.length_cons, List.drop_succ_cons, List.cons_append]
      rw [← h.1]
      exact congrArg (a :: ·) (ih bs h.2)

/-- Decomposition delivered by the whitespace-then-newline fragment. -/
theorem wsThenNl_struct (t r : Str) (h : wsThenNl t = some r) :
    ∃ w, t = w ++ '\n' :: r := by
  induction t generalizing r with
  | nil => simp [wsThenNl] at h
  | cons c rest ih =>
    simp only [wsThenNl] at h
    by_cases hc : c = '\n'
    · simp only [hc, beq_self_eq_true, if_true] at h
      cases hm : wsThenNl rest with
      | some r2 =>
        rw [hm] at h
        simp at h
        obtain ⟨w2, e⟩ := ih r2 hm
        subst h
        exact ⟨c :: w2, by rw [hc]; simpa using congrArg ('\n' :: ·) e⟩
      | none =>
        rw [hm] at h
        simp at h
        exact ⟨[], by rw [hc, h]; rfl⟩
    · simp only [hc, if_false, beq_iff_eq] at h
      by_cases hw : isWS c = true
      · simp only [hw, if_true] at h
        obtain ⟨w2, e⟩ := ih r h
        exact ⟨c :: w2, by simpa using congrArg (c :: ·) e⟩
      · simp [hw] at h

/-- Decomposition delivered by the lazy group fragment. -/
theorem splitAtNlDashes_struct (l g rem : Str) (h : splitAtNlDashes l = some (g, rem)) :
    l = g ++ '\n' :: (("---".data) ++ rem) := by
  induction l generalizing g rem with
  | nil => simp [splitAtNlDashes] at h
  | cons c rest ih =>
    simp only [splitAtNlDashes] at h
    by_cases hc : (c == '\n' && isPrefixB ("---".data) rest) = true
    · rw [if_pos hc] at h
      simp only [Bool.and_eq_true, beq_iff_eq] at hc
      simp only [Option.some_inj, Prod.mk.injEq] at h
      rw [← h.1, ← h.2, hc.1]
      have := isPrefixB_struct (("---".data)) rest hc.2
      simpa using this
    · rw [if_neg hc] at h
      cases hsp : splitAtNlDashes rest with
      | none => rw [hsp] at h; simp at h
      | some pr =>
        rw [hsp] at h
        obtain ⟨g2, r2⟩ := pr
        simp only [Option.some_inj, Prod.mk.injEq] at h
        rw [← h.1, ← h.2]
        simpa using congrArg (c :: ·) (ih g2 r2 hsp)

/-- Decomposition delivered by a frontmatter match: the group starts
right after a newline and ends right before the newline-dashes fence. -/
theorem fmMatchAt_struct (l g rem : Str) (h : fmMatchAt l = some (g, rem)) :
    ∃ a, l = a ++ '\n' :: (g ++ '\n' :: (("---".data) ++ rem)) := by
  unfold fmMatchAt at h
  by_cases hp : isPrefixB ("---".data) l = true
  · rw [if_pos hp] at h
    split at h
    · rename_i r hw
      obtain ⟨w, ew⟩ := wsThenNl_struct _ _ hw
      have hd := isPrefixB_struct (("---".data)) l hp
      have h3 : (("---".data) : Str).length = 3 := rfl
      rw [h3] at hd
      have hsd := splitAtNlDashes_struct r g rem h
      refine ⟨(("---".data) ++ w), ?_⟩
      rw [hd, ew, hsd]
      simp [List.append_assoc]
    · exact Option.noConfusion h
  · rw [if_neg hp] at h
    exact Option.noConfusion h

/-- Unfolding of step 6 at a matching line start. -/
theorem cleanFMGo_eq_match (l grp rem : Str) (h : fmMatchAt l = some (grp, rem)) :
    cleanFMGo l = ("---".data) ++ '\n' :: (cleanYaml grp ++ '\n' :: ("---".data) ++ rem) := by
  rw [cleanFMGo.eq_def, h]

/-- Unfolding of step 6 at a line start with no match. -/
theorem cleanFMGo_eq_line (l line rest : Str) (h1 : fmMatchAt l = none)
    (h2 : splitFirstNl l = some (line, rest)) :
    cleanFMGo l = line ++ '\n' :: cleanFMGo rest := by
  rw [cleanFMGo.eq_def, h1]
  split
  · rename_i grp rem heq
    exact Option.noConfusion heq
  · split
    · rename_i line2 rest2 heq2
      rw [heq2] at h2
      simp only [Option.some_inj, Prod.mk.injEq] at h2
      rw [h2.1, h2.2]
    · rename_i heq2
      rw [heq2] at h2
      exact Option.noConfusion h2

/-- Unfolding of step 6 on a last line with no match. -/
theorem cleanFMGo_eq_id (l : Str) (h1 : fmMatchAt l = none) (h2 : splitFirstNl l = none) :
    cleanFMGo l = l := by
  rw [cleanFMGo.eq_def, h1]
  split
  · rename_i grp rem heq
    exact Option.noConfusion heq
  · split
    · rename_i line2 rest2 heq2
      rw [heq2] at h2
      exact Option.noConfusion h2
    · rfl

/-- Step 6 preserves the line-local invariant: untouched lines are kept
whole, filtered block lines are kept or dropped whole, and the inserted
fences hold no braces. -/
theorem ocsl_cleanFMGo (l : Str) : opensClosed l = true → opensClosed (cleanFMGo l) = true := by
  induction l using cleanFMGo.induct with
  | case1 l grp rem heq =>
    intro h
    rw [cleanFMGo_eq_match l grp rem heq]
    obtain ⟨a, ea⟩ := fmMatchAt_struct l grp rem heq
    rw [ea] at h
    obtain ⟨_, hrest⟩ := ocsl_split_nl _ _ h
    obtain ⟨hg, htail⟩ := ocsl_split_nl _ _ hrest
    have hrem : opensClosed rem = true := ocsl_suffix (("---".data)) rem htail
    refine ocsl_append _ _ (by decide) ?_
    refine ocsl_cons_ne '\n' _ (by decide) ?_
    refine ocsl_append _ _ ?_ hrem
    exact ocsl_append _ _ (ocsl_cleanYaml grp hg) (by decide)
  | case2 l heq1 line rest heq2 ih =>
    intro h
    rw [cleanFMGo_eq_line l line rest heq1 heq2]
    have hs := splitFirstNl_struct _ _ _ heq2
    rw [hs] at h
    obtain ⟨hline, hrest⟩ := ocsl_split_nl _ _ h
    exact ocsl_append _ _ hline (ocsl_cons_ne '\n' _ (by decide) (ih hrest))
  | case3 l heq1 heq2 =>
    intro h
    rw [cleanFMGo_eq_id l heq1 heq2]
    exact h

/-- A run of whitespace holds no close before a newline. -/
theorem hasClose_ws_false (w : Str) (h : ∀ c ∈ w, isWS c = true) :
    hasCloseBeforeNl w = false := by
  induction w with
  | nil => rfl
  | cons c rest ih =>
    have hc := h c (by simp)
    have hcb : c ≠ '}' := by
      intro e
      rw [e] at hc
      exact absurd hc (by decide)
    have hr := ih (fun x hx => h x (by simp [hx]))
    simp [hasCloseBeforeNl, hcb, hr]

/-- Dropping a trailing whitespace run keeps a same-line close. -/
theorem hasClose_append_ws (a w : Str) (hw : ∀ c ∈ w, isWS c = true)
    (h : hasCloseBeforeNl (a ++ w) = true) : hasCloseBeforeNl a = true := by
  induction a with
  | nil =>
    rw [List.nil_append] at h
    rw [hasClose_ws_false w hw] at h
    exact h
  | cons c rest ih =>
    simp only [List.cons_append, hasCloseBeforeNl, Bool.or_eq_true, Bool.and_eq_true,
      beq_iff_eq, bne_iff_ne, ne_eq] at h
    simp only [hasCloseBeforeNl, Bool.or_eq_true, Bool.and_eq_true, beq_iff_eq, bne_iff_ne,
      ne_eq]
    rcases h with h | ⟨h1, h2⟩
    · exact Or.inl h
    · exact Or.inr ⟨h1, ih h2⟩

/-- Dropping a trailing whitespace run keeps the invariant. -/
theorem ocsl_append_ws (a w : Str) (hw : ∀ c ∈ w, isWS c = true)
    (h : opensClosed (a ++ w) = true) : opensClosed a = true := by
  induction a with
  | nil => rfl
  | cons c rest ih =>
    simp only [List.cons_append, opensClosed, Bool.and_eq_true, Bool.or_eq_true, bne_iff_ne,
      ne_eq] at h
    simp only [opensClosed, Bool.and_eq_true, Bool.or_eq_true, bne_iff_ne, ne_eq]
    refine ⟨?_, ih h.2⟩
    rcases h.1 with h1 | h1
    · exact Or.inl h1
    · exact Or.inr (hasClose_append_ws rest w hw h1)

/-- Dropping a prefix by a predicate keeps the invariant. -/
theorem ocsl_dropWhile (p : Char → Bool) (l : Str) (h : opensClosed l = true) :
    opensClosed (l.dropWhile p) = true := by
  induction l with
  | nil => rfl
  | cons c rest ih =>
    by_cases hc : p c
    · rw [List.dropWhile_cons_of_pos hc]
      exact ih (ocsl_tail c rest h)
    · rw [List.dropWhile_cons_of_neg hc]
      exact h

/-- Trimming keeps the invariant. -/
theorem ocsl_jsTrim (l : Str) (h : opensClosed l = true) : opensClosed (jsTrim l) = true := by
  unfold jsTrim
  have hm : opensClosed (l.dropWhile isWS) = true := ocsl_dropWhile isWS l h
  have hsplit :
      List.takeWhile isWS (l.dropWhile isWS).reverse ++ List.dropWhile isWS (l.dropWhile isWS).reverse
        = (l.dropWhile isWS).reverse := List.takeWhile_append_dropWhile isWS _
  have hdec : l.dropWhile isWS =
      (List.dropWhile isWS (l.dropWhile isWS).reverse).reverse ++
      (List.takeWhile isWS (l.dropWhile isWS).reverse).reverse := by
    conv_lhs => rw [← List.reverse_reverse (l.dropWhile isWS), ← hsplit]
    rw [List.reverse_append]
  rw [hdec] at hm
  refine ocsl_append_ws _ _ ?_ hm
  intro c hc
  rw [List.mem_reverse] at hc
  exact List.mem_takeWhile_imp hc

/-- C1: the claim that every sanitized body is delimiter-balanced fails.
On the four-character input open-open-a-close the sanitizer is the
identity (no step matches: the digit rule needs a digit, the
unclosed-expression rule needs a line end reachable before a close), and
the output keeps two opens against one close, so its first open brace is
matched by no later close. -/
theorem sanitize_unbalanced_open_counterexample :
    opensMatched (sanitizeMDXContent (("\x7b\x7ba\x7d").data)) = false ∧
    sanitizeMDXContent (("\x7b\x7ba\x7d").data) = ("\x7b\x7ba\x7d").data := by
  have h : sanitizeMDXContent (("\x7b\x7ba\x7d").data) = ("\x7b\x7ba\x7d").data := by
    simp +decide [sanitizeMDXContent, stripDoctype, normBr, closeTags, neutralizeDigitBraces,
      replaceUnclosed, matchTail, cleanFMGo, fmMatchAt, wsThenNl, splitAtNlDashes, isPrefixB,
      jsTrim, isWS, tagMatch, brTail, splitUntil, splitFirstNl, List.dropWhile]
  exact ⟨by rw [h]; decide, h⟩

/-- C1 (amended): after sanitizeMDXContent, every left brace in the body
is followed by a right brace later on the same line (the unclosed-
expression pass removes every open whose line ends before a close, and
the later passes only drop whole lines, insert brace-free fences, or trim
whitespace).  Full delimiter balance does not hold: nested opens such as
open-open-a-close survive, as the counterexample shows. -/
theorem sanitizeMDXContent_opens_closed (content : Str) :
    opensClosed (sanitizeMDXContent content) = true := by
  unfold sanitizeMDXContent
  by_cases he : content.isEmpty = true
  · rw [if_pos he]
    rfl
  · rw [if_neg he]
    exact ocsl_jsTrim _ (ocsl_cleanFMGo _ (ocsl_replaceUnclosed _))

/-- C2: the claim that a missing title or description field yields an
error-severity issue fails on the code: the frontmatter check pushes
every missing field, required and recommended alike, to the warning list
and returns an empty error list; shown on a document whose frontmatter
has a description but no title. -/
theorem missing_required_field_warns_counterexample :
    (checkFrontmatter (("---\ndescription: \"x\"\n---\nbody").data) (("doc.mdx").data)).errors
      = [] ∧
    (("doc.mdx - Missing required frontmatter field: title").data) ∈
      (checkFrontmatter (("---\ndescription: \"x\"\n---\nbody").data) (("doc.mdx").data)).warnings := by
  constructor
  · decide
  · decide

/-- C2 (amended): a missing title or description field in a matched
frontmatter block produces a warning-severity issue naming the field,
exactly as the recommended fields do, and the frontmatter check never
produces an error-severity issue. -/
theorem checkFrontmatter_required_fields_warn (content fpath : Str) :
    (checkFrontmatter content fpath).errors = [] ∧
    (∀ fm rest, fmMatchAt content = some (fm, rest) →
      (hasSub fm (("title:").data) = false →
        (fpath ++ ((" - Missing required frontmatter field: title").data)) ∈
          (checkFrontmatter content fpath).warnings) ∧
      (hasSub fm (("description:").data) = false →
        (fpath ++ ((" - Missing required frontmatter field: description").data)) ∈
          (checkFrontmatter content fpath).warnings)) := by
  have ht : (("title").data : Str) ++ ((":").data) = (("title:").data) := rfl
  have hd : (("description").data : Str) ++ ((":").data) = (("description:").data) := rfl
  unfold checkFrontmatter
  cases hm : fmMatchAt content with
  | none =>
    refine ⟨rfl, ?_⟩
    intro fm rest h
    exact Option.noConfusion h
  | some pr =>
    obtain ⟨fm, rest⟩ := pr
    refine ⟨rfl, ?_⟩
    intro fm2 rest2 h
    simp only [Option.some_inj, Prod.mk.injEq] at h
    rw [← h.1]
    constructor
    · intro hmiss
      simp only [List.filterMap, ht, hd, hmiss]
      simp [hmiss]
    · intro hmiss
      simp only [List.filterMap, ht, hd, hmiss]
      split <;> simp

/-- C2 witness: the amended statement holds at the concrete document of
the counterexample. -/
theorem checkFrontmatter_required_fields_warn_witness :
    (checkFrontmatter (("---\ndescription: \"x\"\n---\nbody").data) (("README.mdx").data)).errors
      = [] ∧
    (∀ fm rest,
      fmMatchAt (("---\ndescription: \"x\"\n---\nbody").data) = some (fm, rest) →
      (hasSub fm (("title:").data) = false →
        ((("README.mdx").data) ++ ((" - Missing required frontmatter field: title").data)) ∈
          (checkFrontmatter (("---\ndescription: \"x\"\n---\nbody").data) (("README.mdx").data)).warnings) ∧
      (hasSub fm (("description:").data) = false →
        ((("README.mdx").data) ++ ((" - Missing required frontmatter field: description").data)) ∈
          (checkFrontmatter (("---\ndescription: \"x\"\n---\nbody").data) (("README.mdx").data)).warnings)) :=
  checkFrontmatter_required_fields_warn (("---\ndescription: \"x\"\n---\nbody").data) (("README.mdx").data)

/-- C3: the project object built by the selective scan carries the
descriptor id under the key name and sets no key id, yet the frontmatter
generator reads the id property; the required project field therefore
interpolates the JS undefined and every generated document carries the
literal line project colon quoted undefined, shown at the example
descriptor. -/
theorem frontmatter_project_field_undefined :
    (∀ cfg : ProjectConfig, jsGet (mkProjectObj cfg) (("id").data) = none) ∧
    (("project: \"undefined\"").data) ∈
      splitLines (generateCleanFrontmatter (mkProjectObj exCfg) (("readme").data) none exNow1) := by
  constructor
  · intro cfg
    rfl
  · have h : generateCleanFrontmatter (mkProjectObj exCfg) (("readme").data) none exNow1 =
        (("---\ntitle: \"P One - Readme\"\ndescription: \"readme documentation for P One\"\ncategory: \"core-platforms\"\nlastUpdated: \"2025-01-01\"\nproject: \"undefined\"\n---").data) := by
      decide
    rw [h]
    have h2 : splitLines (("---\ntitle: \"P One - Readme\"\ndescription: \"readme documentation for P One\"\ncategory: \"core-platforms\"\nlastUpdated: \"2025-01-01\"\nproject: \"undefined\"\n---").data) =
        [(("---").data), (("title: \"P One - Readme\"").data),
         (("description: \"readme documentation for P One\"").data),
         (("category: \"core-platforms\"").data), (("lastUpdated: \"2025-01-01\"").data),
         (("project: \"undefined\"").data), (("---").data)] := by
      simp +decide [splitLines, splitFirstNl]
    rw [h2]
    decide

/-- C8: the classifier is a pure deterministic function of the path and
content pair: the embedding takes exactly those two inputs (the source
reads nothing else), so equal inputs always give the same label. -/
theorem classify_deterministic (p1 c1 p2 c2 : Str) (hp : p1 = p2) (hc : c1 = c2) :
    classify p1 c1 = classify p2 c2 := by
  rw [hp, hc]

/-- C8 witness: determinism applied at a concrete path and content. -/
theorem classify_deterministic_witness :
    (("README.md").data : Str) = (("README.md").data) ∧
    classify (("README.md").data) (("hello").data) = classify (("README.md").data) (("hello").data) :=
  ⟨rfl, classify_deterministic (("README.md").data) (("hello").data) (("README.md").data)
    (("hello").data) rfl rfl⟩

/-- C9: the claim that unmapped labels sort after every mapped label
fails: the fallback of getNavigationOrder is 50 while the mapped misc
label has order 99, so the unmapped label zzz sorts before misc. -/
theorem nav_order_sentinel_counterexample :
    navOrderTable.lookup (("zzz").data) = none ∧
    ((("misc").data), 99) ∈ navOrderTable ∧
    getNavigationOrder (("zzz").data) = 50 ∧
    ¬(getNavigationOrder (("zzz").data) > getNavigationOrder (("misc").data)) := by
  refine ⟨by decide, by decide, by decide, by decide⟩

/-- C9 (amended): a label outside the order table gets the sentinel 50,
which is strictly greater than the order of every mapped label except
misc (99); unmapped labels therefore sort after all mapped labels except
misc, not last. -/
theorem nav_order_unmapped_sentinel (t : Str) (h : navOrderTable.lookup t = none) :
    getNavigationOrder t = 50 ∧
    ∀ p ∈ navOrderTable, p.1 ≠ (("misc").data) → p.2 < getNavigationOrder t := by
  have h50 : getNavigationOrder t = 50 := by
    unfold getNavigationOrder
    rw [h]
  refine ⟨h50, ?_⟩
  intro p hp hne
  rw [h50]
  simp only [navOrderTable, List.mem_cons, List.not_mem_nil, or_false] at hp
  rcases hp with h1|h1|h1|h1|h1|h1|h1|h1|h1|h1|h1|h1|h1
  all_goals subst h1
  all_goals first
  | decide
  | exact absurd rfl hne

/-- C9 witness: the amended statement at the unmapped label zzz. -/
theorem nav_order_unmapped_sentinel_witness :
    navOrderTable.lookup (("zzz").data) = none ∧
    (getNavigationOrder (("zzz").data) = 50 ∧
     ∀ p ∈ navOrderTable, p.1 ≠ (("misc").data) → p.2 < getNavigationOrder (("zzz").data)) :=
  ⟨by decide, nav_order_unmapped_sentinel (("zzz").data) (by decide)⟩

/-- C5: a validation run passes exactly when the collected error list is
empty, so warnings never block (at the concrete warning-only corpus the
run passes with a nonempty warning list), and the CLI exit status maps
the pass boolean to zero and failure to one. -/
theorem validator_pass_iff_no_errors :
    (∀ (fs : FS) (docsDir : Str) (navFile : Option NavJson),
      ((validate fs docsDir navFile).success = true ↔ (validate fs docsDir navFile).errors = []) ∧
      (mainExitCode fs docsDir navFile =
        if (validate fs docsDir navFile).errors = [] then 0 else 1)) ∧
    ((validate exWarnFS exDocsDir none).success = true ∧
     (validate exWarnFS exDocsDir none).warnings ≠ []) := by
  have key : ∀ (fs : FS) (docsDir : Str) (navFile : Option NavJson),
      (validate fs docsDir navFile).success = (validate fs docsDir navFile).errors.isEmpty :=
    fun _ _ _ => rfl
  constructor
  · intro fs docsDir navFile
    constructor
    · rw [key fs docsDir navFile]
      exact List.isEmpty_iff
    · unfold mainExitCode
      rw [key fs docsDir navFile]
      by_cases he : (validate fs docsDir navFile).errors = []
      · rw [if_pos he, if_pos ?_]
        rw [he]
        rfl
      · rw [if_neg ?_, if_neg he]
        intro hc
        rw [List.isEmpty_iff] at hc
        exact he hc
  · have h5 : findMdxFiles exWarnFS exDocsDir = [(("./apps/docs/projects/a.mdx").data)] := by
      decide
    have hA : checkMDXSyntax (("x").data) (("./apps/docs/projects/a.mdx").data) = ⟨[], []⟩ := by
      simp +decide [checkMDXSyntax, lineIssues, splitLines, splitFirstNl, linkScan, linkTry,
        splitUntil, linkLike, seekBracketParen, anyCloseParen, headingDigit, hasDigitBrace,
        isPrefixB, jsTrim, isWS, hasSub, vcat]
    have hB : checkLinks exWarnFS (("x").data) (("./apps/docs/projects/a.mdx").data)
        = ⟨[], []⟩ := by
      simp +decide [checkLinks, linkScan, linkTry, splitUntil]
    have hC : checkImages exWarnFS (("x").data) (("./apps/docs/projects/a.mdx").data)
        = ⟨[], []⟩ := by
      simp +decide [checkImages, imageScan, linkTry, splitUntil]
    have hD : checkFrontmatter (("x").data) (("./apps/docs/projects/a.mdx").data) =
        ⟨[], [(("./apps/docs/projects/a.mdx - Missing frontmatter").data)]⟩ := by
      decide
    have hE : validateNavigation exWarnFS exDocsDir none =
        ⟨[], [(("Could not validate navigation").data)]⟩ := by
      decide
    have hR : fsRead exWarnFS (("./apps/docs/projects/a.mdx").data) = some (("x").data) := by
      decide
    constructor
    · simp [validate, runPhase, h5, hR, hA, hB, hC, hD, hE, vcat]
    · simp [validate, runPhase, h5, hR, hA, hB, hC, hD, hE, vcat]

set_option maxRecDepth 4000 in
/-- C7: the claim that identical inputs and an identical date give
byte-identical documents fails for the project index: its footer
interpolates the full run timestamp, so the two instants of the example,
which share a calendar date, give different index bytes. -/
theorem same_date_not_byte_identical_counterexample :
    isoDate exNow1 = isoDate exNow2 ∧ exNow1 ≠ exNow2 ∧
    generateProjectIndexContent exLegacy [] exNow1 ≠
      generateProjectIndexContent exLegacy [] exNow2 := by
  refine ⟨by decide, by decide, by decide⟩

/-- C7 (amended): the documents of the selective generator are
byte-identical across runs on the same calendar date: all of their
time-dependence goes through the date part of the timestamp, so the
whole result, written bytes included, is a function of the date alone.
The legacy project index is the exception shown by the counterexample:
its footer interpolates the full timestamp. -/
theorem selective_generation_date_deterministic (dry : Bool) (cfg : ProjectConfig)
    (files : List SFile) (dt outDir now1 now2 : Str) (h : isoDate now1 = isoDate now2) :
    generateSelectiveDocument dry cfg files dt outDir now1 =
    generateSelectiveDocument dry cfg files dt outDir now2 := by
  unfold generateSelectiveDocument selectiveBody generateIntroductionContent
    generateCleanFrontmatter
  rw [h]

/-- C7 witness: date-determinism applied at the two instants of the
counterexample pair. -/
theorem selective_generation_date_deterministic_witness :
    isoDate exNow1 = isoDate exNow2 ∧
    generateSelectiveDocument false exCfg [] (("readme").data) exCfg.outputPath exNow1 =
      generateSelectiveDocument false exCfg [] (("readme").data) exCfg.outputPath exNow2 :=
  ⟨by decide, selective_generation_date_deterministic false exCfg [] (("readme").data)
    exCfg.outputPath exNow1 exNow2 (by decide)⟩

/-- The body switch at the introduction type. -/
theorem selectiveBody_intro (cfg : ProjectConfig) (files : List SFile) (now : Str) :
    selectiveBody cfg files (("introduction").data) now =
      some (generateIntroductionContent cfg files now) := by
  simp +decide [selectiveBody]

/-- The body switch at the readme type. -/
theorem selectiveBody_readme (cfg : ProjectConfig) (files : List SFile) (now : Str) :
    selectiveBody cfg files (("readme").data) now =
      some (match selectiveSource files (("readme").data) with
            | some f => sanitizeMDXContent f.content
            | none => generateDefaultReadme cfg) := by
  simp +decide [selectiveBody]

/-- The body switch at the architecture type. -/
theorem selectiveBody_architecture (cfg : ProjectConfig) (files : List SFile) (now : Str) :
    selectiveBody cfg files (("architecture").data) now =
      some (match selectiveSource files (("architecture").data) with
            | some f => sanitizeMDXContent f.content
            | none => generateDefaultArchitecture cfg) := by
  simp +decide [selectiveBody]

/-- The body switch at the development type. -/
theorem selectiveBody_development (cfg : ProjectConfig) (files : List SFile) (now : Str) :
    selectiveBody cfg files (("development").data) now =
      some (match selectiveSource files (("development").data) with
            | some f => sanitizeMDXContent f.content
            | none => generateDefaultDevelopment cfg) := by
  simp +decide [selectiveBody]

/-- The behaviour of the generator once a body is selected: the record
is produced exactly when the pre-check passes, at most one write
happens, and a failed pre-check produces nothing at all. -/
theorem gen_with_body (dry : Bool) (cfg : ProjectConfig) (files : List SFile)
    (dt outDir now b : Str) (hb : selectiveBody cfg files dt now = some b) :
    ((generateSelectiveDocument dry cfg files dt outDir now).1.isSome =
      validateMDXSyntax
        (generateCleanFrontmatter (mkProjectObj cfg) dt (selectiveSource files dt) now ++
          (("\n\n").data) ++ b)) ∧
    ((generateSelectiveDocument dry cfg files dt outDir now).2.length ≤ 1) ∧
    (validateMDXSyntax
        (generateCleanFrontmatter (mkProjectObj cfg) dt (selectiveSource files dt) now ++
          (("\n\n").data) ++ b) = false →
      generateSelectiveDocument dry cfg files dt outDir now = (none, [])) := by
  unfold generateSelectiveDocument
  rw [hb]
  dsimp only
  split
  · rename_i hv
    refine ⟨hv.symm, by cases dry <;> simp, ?_⟩
    intro hf
    rw [hf] at hv
    exact Bool.noConfusion hv
  · rename_i hv
    rw [Bool.not_eq_true] at hv
    exact ⟨hv.symm, by simp, fun _ => rfl⟩

/-- C4: the claim that every declared document type yields exactly one
output fails: with the example descriptor declaring the readme type and
a matching readme source whose content is an unterminated doctype
marker, sanitization keeps the marker, the structural pre-check rejects
the assembled document, and the generator returns null and writes
nothing, so the declared type yields zero outputs. -/
theorem declared_type_zero_outputs_counterexample :
    (("readme").data) ∈ exCfg.documentTypes ∧
    (selectiveSource exFilesDoctype (("readme").data)).isSome = true ∧
    generateSelectiveDocument false exCfg exFilesDoctype (("readme").data) exCfg.outputPath
      exNow1 = (none, []) := by
  refine ⟨by decide, by decide, ?_⟩
  simp +decide [generateSelectiveDocument, selectiveBody, selectiveSource, sanitizeMDXContent,
    stripDoctype, normBr, closeTags, neutralizeDigitBraces, replaceUnclosed, matchTail,
    cleanFMGo, fmMatchAt, wsThenNl, splitAtNlDashes, isPrefixB, jsTrim, isWS, tagMatch,
    brTail, splitUntil, splitFirstNl, List.dropWhile, validateMDXSyntax,
    generateCleanFrontmatter, mkProjectObj, jsGet, jsUndef, capitalizeFirst, isoDate, joinNl,
    hasSub, exCfg, exFilesDoctype, exNow1, lowerStr, lowerChar, upperChar, natStr, pathJoin,
    pathRelative]

/-- C4 (amended): for each of the four supported document types the
generator yields at most one document: a record is returned exactly when
the assembled frontmatter and body pass the structural pre-check, at
most one write happens, a failed pre-check writes nothing and returns
null, a non-introduction type with no matching source file gets the
templated synthetic body for its type, and a matching source file
supplies its sanitized content. -/
theorem generateSelectiveDocument_amended (dry : Bool) (cfg : ProjectConfig)
    (files : List SFile) (dt outDir now : Str)
    (hdt : dt ∈ [(("introduction").data), (("readme").data), (("architecture").data),
      (("development").data)]) :
    ((generateSelectiveDocument dry cfg files dt outDir now).1.isSome =
      validateMDXSyntax
        (generateCleanFrontmatter (mkProjectObj cfg) dt (selectiveSource files dt) now ++
          (("\n\n").data) ++ ((selectiveBody cfg files dt now).getD []))) ∧
    ((generateSelectiveDocument dry cfg files dt outDir now).2.length ≤ 1) ∧
    (validateMDXSyntax
        (generateCleanFrontmatter (mkProjectObj cfg) dt (selectiveSource files dt) now ++
          (("\n\n").data) ++ ((selectiveBody cfg files dt now).getD [])) = false →
      generateSelectiveDocument dry cfg files dt outDir now = (none, [])) ∧
    (dt = (("readme").data) → selectiveSource files dt = none →
      selectiveBody cfg files dt now = some (generateDefaultReadme cfg)) ∧
    (dt = (("architecture").data) → selectiveSource files dt = none →
      selectiveBody cfg files dt now = some (generateDefaultArchitecture cfg)) ∧
    (dt = (("development").data) → selectiveSource files dt = none →
      selectiveBody cfg files dt now = some (generateDefaultDevelopment cfg)) ∧
    (∀ f, selectiveSource files dt = some f → dt ≠ (("introduction").data) →
      selectiveBody cfg files dt now = some (sanitizeMDXContent f.content)) := by
  have hbody : ∃ b, selectiveBody cfg files dt now = some b := by
    simp only [List.mem_cons, List.not_mem_nil, or_false] at hdt
    rcases hdt with h|h|h|h
    · exact ⟨_, by rw [h]; exact selectiveBody_intro cfg files now⟩
    · exact ⟨_, by rw [h]; exact selectiveBody_readme cfg files now⟩
    · exact ⟨_, by rw [h]; exact selectiveBody_architecture cfg files now⟩
    · exact ⟨_, by rw [h]; exact selectiveBody_development cfg files now⟩
  obtain ⟨b, hb⟩ := hbody
  have hmain := gen_with_body dry cfg files dt outDir now b hb
  have hg : (selectiveBody cfg files dt now).getD [] = b := by
    rw [hb]
    rfl
  rw [hg]
  refine ⟨hmain.1, hmain.2.1, hmain.2.2, ?_, ?_, ?_, ?_⟩
  · intro hdt2 hsrc
    subst hdt2
    rw [selectiveBody_readme cfg files now, hsrc]
  · intro hdt2 hsrc
    subst hdt2
    rw [selectiveBody_architecture cfg files now, hsrc]
  · intro hdt2 hsrc
    subst hdt2
    rw [selectiveBody_development cfg files now, hsrc]
  · intro f hsrc hni
    simp only [List.mem_cons, List.not_mem_nil, or_false] at hdt
    rcases hdt with h|h|h|h
    · exact absurd h hni
    · subst h
      rw [selectiveBody_readme cfg files now, hsrc]
    · subst h
      rw [selectiveBody_architecture cfg files now, hsrc]
    · subst h
      rw [selectiveBody_development cfg files now, hsrc]

/-- C4 witness: the amended statement at the example descriptor with no
source files and the readme type. -/
theorem generateSelectiveDocument_amended_witness :
    (("readme").data) ∈ [(("introduction").data), (("readme").data), (("architecture").data),
      (("development").data)] ∧
    (((generateSelectiveDocument false exCfg [] (("readme").data) exCfg.outputPath exNow1).1.isSome =
      validateMDXSyntax
        (generateCleanFrontmatter (mkProjectObj exCfg) (("readme").data)
          (selectiveSource [] (("readme").data)) exNow1 ++
          (("\n\n").data) ++ ((selectiveBody exCfg [] (("readme").data) exNow1).getD []))) ∧
    ((generateSelectiveDocument false exCfg [] (("readme").data) exCfg.outputPath exNow1).2.length ≤ 1) ∧
    (validateMDXSyntax
        (generateCleanFrontmatter (mkProjectObj exCfg) (("readme").data)
          (selectiveSource [] (("readme").data)) exNow1 ++
          (("\n\n").data) ++ ((selectiveBody exCfg [] (("readme").data) exNow1).getD [])) = false →
      generateSelectiveDocument false exCfg [] (("readme").data) exCfg.outputPath exNow1
        = (none, [])) ∧
    ((("readme").data : Str) = (("readme").data) → selectiveSource [] (("readme").data) = none →
      selectiveBody exCfg [] (("readme").data) exNow1 = some (generateDefaultReadme exCfg)) ∧
    ((("readme").data : Str) = (("architecture").data) →
      selectiveSource [] (("readme").data) = none →
      selectiveBody exCfg [] (("readme").data) exNow1 = some (generateDefaultArchitecture exCfg)) ∧
    ((("readme").data : Str) = (("development").data) →
      selectiveSource [] (("readme").data) = none →
      selectiveBody exCfg [] (("readme").data) exNow1 = some (generateDefaultDevelopment exCfg)) ∧
    (∀ f, selectiveSource [] (("readme").data) = some f →
      (("readme").data : Str) ≠ (("introduction").data) →
      selectiveBody exCfg [] (("readme").data) exNow1 = some (sanitizeMDXContent f.content))) :=
  ⟨by decide, generateSelectiveDocument_amended false exCfg [] (("readme").data)
    exCfg.outputPath exNow1 (by decide)⟩

/-- C6 helper: a dry-run generateSelectiveDocument emits no write
operation, whatever the body and pre-check outcome. -/
theorem gen_dry_writes (cfg : ProjectConfig) (files : List SFile) (dt outDir now : Str) :
    (generateSelectiveDocument true cfg files dt outDir now).2 = [] := by
  unfold generateSelectiveDocument
  cases hb : selectiveBody cfg files dt now with
  | none => rfl
  | some b =>
    dsimp only
    split
    · rfl
    · rfl

/-- C6 helper: the processed record returned by generateSelectiveDocument
does not depend on the dry-run flag. -/
theorem gen_fst_dry (cfg : ProjectConfig) (files : List SFile) (dt outDir now : Str)
    (dry : Bool) :
    (generateSelectiveDocument dry cfg files dt outDir now).1 =
    (generateSelectiveDocument false cfg files dt outDir now).1 := by
  unfold generateSelectiveDocument
  cases hb : selectiveBody cfg files dt now with
  | none => rfl
  | some b =>
    dsimp only
    split
    · rfl
    · rfl

/-- C6 helper: the per-type fold of processSelectiveProject accumulates
no writes in dry-run mode. -/
theorem foldGen_dry_writes (cfg : ProjectConfig) (files : List SFile) (outDir now : Str)
    (dts : List Str) :
    ∀ (acc : List GenDoc × List WriteOp), acc.2 = [] →
      (dts.foldl (fun acc dt =>
        let r := generateSelectiveDocument true cfg files dt outDir now
        (acc.1 ++ (match r.1 with | some d => [d] | none => []), acc.2 ++ r.2)) acc).2 = [] := by
  induction dts with
  | nil => intro acc h; exact h
  | cons dt rest ih =>
    intro acc h
    rw [List.foldl_cons]
    refine ih _ ?_
    simp [h, gen_dry_writes]

/-- C6 helper: the document records accumulated by the per-type fold of
processSelectiveProject do not depend on the dry-run flag. -/
theorem foldGen_fst_dry (cfg : ProjectConfig) (files : List SFile) (outDir now : Str)
    (dry : Bool) (dts : List Str) :
    ∀ (a1 : List GenDoc) (a2 b2 : List WriteOp),
      (dts.foldl (fun acc dt =>
        let r := generateSelectiveDocument dry cfg files dt outDir now
        (acc.1 ++ (match r.1 with | some d => [d] | none => []), acc.2 ++ r.2)) (a1, a2)).1 =
      (dts.foldl (fun acc dt =>
        let r := generateSelectiveDocument false cfg files dt outDir now
        (acc.1 ++ (match r.1 with | some d => [d] | none => []), acc.2 ++ r.2)) (a1, b2)).1 := by
  induction dts with
  | nil => intro a1 a2 b2; rfl
  | cons dt rest ih =>
    intro a1 a2 b2
    rw [List.foldl_cons, List.foldl_cons]
    dsimp only
    rw [gen_fst_dry cfg files dt outDir now dry]
    exact ih _ _ _

/-- C6 helper: a dry-run processSelectiveProject performs no writes. -/
theorem psp_dry_writes (fs : FS) (cfg : ProjectConfig) (now : Str) :
    (processSelectiveProject true fs cfg now).2 = [] := by
  show ([] : List WriteOp) ++ _ = []
  rw [List.nil_append]
  exact foldGen_dry_writes cfg (scanSelectiveProjectFiles fs cfg) cfg.outputPath now
    cfg.documentTypes ([], []) rfl

/-- C6 helper: the documents produced by processSelectiveProject do not
depend on the dry-run flag, so the pre-checks still run in dry mode. -/
theorem psp_fst_dry (fs : FS) (cfg : ProjectConfig) (now : Str) (dry : Bool) :
    (processSelectiveProject dry fs cfg now).1 = (processSelectiveProject false fs cfg now).1 :=
  foldGen_fst_dry cfg (scanSelectiveProjectFiles fs cfg) cfg.outputPath now dry
    cfg.documentTypes [] [] []

/-- C6 helper: the flattened per-project write lists of a dry-run scan
are empty. -/
theorem scan_dry_flatten (fs : FS) (now : Str) (l : List ProjectConfig) :
    (l.map (fun c => (processSelectiveProject true fs c now).2)).flatten = [] := by
  induction l with
  | nil => rfl
  | cons c rest ih =>
    rw [List.map_cons, List.flatten_cons, psp_dry_writes, List.nil_append]
    exact ih

/-- C6: a dry run performs zero filesystem writes while the full pipeline
still executes: every dry-run per-project processing emits no write
operation yet computes exactly the document records of a wet run (so the
structural pre-checks still run), and the whole dry-run scan succeeds,
over the selected projects, with an empty write list. -/
theorem dry_run_zero_writes (fs : FS) (cfgs : List ProjectConfig) (cfg : ProjectConfig)
    (now : Str) :
    (processSelectiveProject true fs cfg now).2 = [] ∧
    (processSelectiveProject true fs cfg now).1 = (processSelectiveProject false fs cfg now).1 ∧
    scanSelective true fs cfgs now =
      some { projects := cfgs.filter (fun c => pathExistsM fs c.sourcePath),
             docs := (cfgs.filter (fun c => pathExistsM fs c.sourcePath)).map
               (fun c => (c.id, (processSelectiveProject true fs c now).1)),
             nav := (cfgs.filter (fun c => pathExistsM fs c.sourcePath)).map
               (fun c => navAddProject c.id (processSelectiveProject true fs c now).1),
             writes := [] } := by
  refine ⟨psp_dry_writes fs cfg now, psp_fst_dry fs cfg now true, ?_⟩
  simp [scanSelective, List.map_map, Function.comp, scan_dry_flatten]
  intro l x _ _ hl
  rw [← hl]
  exact psp_dry_writes fs x now

/-- C10 helper: a scanned-file record built by the loop body keeps the
path it was built from. -/
theorem mkScannedFile_path (fs : FS) (cfg : ProjectConfig) (p : Str) (f : SFile)
    (h : mkScannedFile fs cfg p = some f) : f.path = p := by
  unfold mkScannedFile at h
  split at h
  · exact Option.noConfusion h
  · split at h
    · simp only [Option.some_inj] at h
      rw [← h]
    · exact Option.noConfusion h

/-- C10 helper: every member of a scanned-file contribution for one
primary-file pattern is the literal joined path, and it exists. -/
theorem glob_contrib_mem (fs : FS) (cfg : ProjectConfig) (pat : Str) (f : SFile)
    (h : f ∈ (glob fs (pathJoin cfg.sourcePath pat)).filterMap (mkScannedFile fs cfg)) :
    f.path = pathJoin cfg.sourcePath pat ∧ pathExistsM fs f.path = true := by
  unfold glob at h
  by_cases he : pathExistsM fs (pathJoin cfg.sourcePath pat) = true
  · rw [if_pos he] at h
    rw [List.filterMap_cons, List.filterMap_nil] at h
    cases hm : mkScannedFile fs cfg (pathJoin cfg.sourcePath pat) with
    | none => rw [hm] at h; exact absurd h (List.not_mem_nil f)
    | some f2 =>
      rw [hm] at h
      simp only [List.mem_singleton] at h
      subst h
      have hp := mkScannedFile_path fs cfg _ f hm
      exact ⟨hp, by rw [hp]; exact he⟩
  · rw [if_neg he] at h
    exact absurd h (List.not_mem_nil f)

/-- C10 helper: membership in an append-accumulating foldl comes from the
initial accumulator or from one of the folded elements. -/
theorem foldl_append_mem {α β : Type} (g : β → List α) (l : List β) :
    ∀ (acc : List α) (x : α), x ∈ l.foldl (fun a b => a ++ g b) acc →
      x ∈ acc ∨ ∃ b ∈ l, x ∈ g b := by
  induction l with
  | nil => intro acc x h; exact Or.inl h
  | cons b rest ih =>
    intro acc x h
    rw [List.foldl_cons] at h
    rcases ih _ x h with h1 | ⟨b2, hb2, hx⟩
    · rcases List.mem_append.mp h1 with h2 | h2
      · exact Or.inl h2
      · exact Or.inr ⟨b, List.mem_cons_self b rest, h2⟩
    · exact Or.inr ⟨b2, List.mem_cons_of_mem b hb2, hx⟩

/-- C10: the glob helper never expands wildcards -- it returns the
pattern itself exactly when it names an existing literal path, and the
empty list otherwise; consequently every file found by the selective
scanner is the literal join of the source path with one configured
primary-file pattern, which exists on disk, so a wildcard pattern
contributes a file only if it exists verbatim as a path. -/
theorem glob_no_wildcard_expansion :
    (∀ (fs : FS) (pat : Str),
      glob fs pat = if pathExistsM fs pat = true then [pat] else []) ∧
    (∀ (fs : FS) (cfg : ProjectConfig) (f : SFile), f ∈ scanSelectiveProjectFiles fs cfg →
      ∃ pat ∈ cfg.primaryFiles, f.path = pathJoin cfg.sourcePath pat ∧
        pathExistsM fs f.path = true) := by
  constructor
  · intro fs pat
    rfl
  · intro fs cfg f hf
    unfold scanSelectiveProjectFiles at hf
    rcases foldl_append_mem
        (fun pat => (glob fs (pathJoin cfg.sourcePath pat)).filterMap (mkScannedFile fs cfg))
        cfg.primaryFiles [] f hf with h | ⟨pat, hpat, hmem⟩
    · exact absurd h (List.not_mem_nil f)
    · exact ⟨pat, hpat, glob_contrib_mem fs cfg pat f hmem⟩

/-- C10 witness: the scanner-level half instantiated at the example
filesystem and descriptor, on the concrete scanned record. -/
theorem glob_no_wildcard_expansion_witness :
    exScanned ∈ scanSelectiveProjectFiles exFS exCfg ∧
    ∃ pat ∈ exCfg.primaryFiles, exScanned.path = pathJoin exCfg.sourcePath pat ∧
      pathExistsM exFS exScanned.path = true :=
  ⟨by decide, glob_no_wildcard_expansion.2 exFS exCfg exScanned (by decide)⟩

end LM
